import Mathlib

/-!
# email-operator: delivery pipeline

A shallow embedding of `internal/thirdparty/mail_client.go` (the provider
clients and their polling loops) and of `internal/controller/email_controller.go`
(the reconciler), followed by theorems about them.

Modelling conventions
* A Go `error` is a `GoError`; a nil error is `none`.
* Time is a natural number of nanoseconds, as in Go's `time.Duration`.
* The third-party SDKs and the Kubernetes client are oracles: records of
  functions giving the answer of each call. The n-th delivery check of a run
  may answer differently from the others, and takes a duration of its own.
* Every provider call and every sleep is appended to a trace.
* The `for` loops take a fuel argument and return `none` when it runs out;
  `pollFuel` iterations are shown to be always enough.
-/

namespace EmailOperator

/-! ## Go errors -/

/-- A non-nil Go `error`: the text of `err.Error()` and the answer of
`errors.IsNotFound(err)`. -/
structure GoError where
  msg : String
  isNotFound : Bool
deriving DecidableEq, Repr

/-- Go `errors.New(text)`. -/
def errorsNew (text : String) : GoError :=
  { msg := text, isNotFound := false }

/-! ## api/v1 types -/

/-- Type `EmailSpec` of `api/v1/email_types.go`. -/
structure EmailSpec where
  SenderConfigRef : String
  RecipientEmail : String
  Subject : String
  Body : String
deriving DecidableEq, Repr

/-- Type `EmailStatus` of `api/v1/email_types.go`. -/
structure EmailStatus where
  DeliveryStatus : String
  MessageID : String
  Error : String
deriving DecidableEq, Repr

/-- Type `Email` of `api/v1/email_types.go`, with the two metadata fields the
reconciler reads. -/
structure Email where
  Name : String
  Generation : Nat
  Spec : EmailSpec
  Status : EmailStatus
deriving DecidableEq, Repr

/-- Modelled from the spec: the `EmailSenderConfigSpec` type declaration is not
among the source files; section 6 of the specification lists its fields
`spec.provider`, `spec.senderEmail`, `spec.domain`, `spec.apiTokenSecretRef`,
which are the four the reconciler reads. -/
structure EmailSenderConfigSpec where
  Provider : String
  SenderEmail : String
  Domain : String
  APITokenSecretRef : String
deriving DecidableEq, Repr

/-- Modelled from the spec: the `EmailSenderConfig` object, of which the
reconciler reads only `Spec`. -/
structure EmailSenderConfig where
  Spec : EmailSenderConfigSpec
deriving DecidableEq, Repr

/-- A `corev1.Secret`: `Data` maps a key to its bytes. -/
structure Secret where
  Data : List (String × String)
deriving DecidableEq, Repr

/-- Go `string(secret.Data[key])`: the empty string for an absent key. -/
def Secret.dataString (secret : Secret) (key : String) : String :=
  (secret.Data.lookup key).getD ""

/-! ## internal/thirdparty/mail_client.go -/

/-- Type `MailClient` of `mail_client.go`. -/
structure MailClient where
  Provider : String
  ApiToken : String
  Recipient : String
  Subject : String
  From : String
  Text : String
  Domain : String
deriving DecidableEq, Repr

/-- Type `Result` of `mail_client.go`; `Result{}` is `default`. -/
structure Result where
  MessageID : String
  DeliveryStatus : String
deriving DecidableEq, Repr

instance : Inhabited Result := ⟨{ MessageID := "", DeliveryStatus := "" }⟩

/-- Go `time.Second`, in nanoseconds. -/
def Second : Nat := 1000000000

/-- Constant `MessageCheckTimeout = 60 * time.Second`. -/
def MessageCheckTimeout : Nat := 60 * Second

/-- Constant `MessageCheckInterval = 5 * time.Second`. -/
def MessageCheckInterval : Nat := 5 * Second

/-- Number of loop iterations after which the timer has certainly fired. -/
def pollFuel : Nat := MessageCheckTimeout / MessageCheckInterval + 1

/-- The message built by `sendViaMailerSend` (lines 47-59). -/
structure MailerSendMessage where
  FromName : String
  FromEmail : String
  Recipients : List (String × String)
  Subject : String
  Text : String
deriving DecidableEq, Repr

/-- The message built by `mg.NewMessage(sender, subject, body, recipient)`. -/
structure MailgunMessage where
  Sender : String
  Subject : String
  Body : String
  Recipient : String
deriving DecidableEq, Repr

/-- One observable action of a run of `SendEmail`. -/
inductive Call where
  /-- Call of `ms.Email.Send(ctx, message)` on a client built with the token. -/
  | emailSend (apiToken : String) (message : MailerSendMessage)
  /-- Call of `ms.Message.Get(ctx, messageID)` started at time `now`. -/
  | messageGet (now : Nat) (messageID : String)
  /-- Call of `mg.Send(ctx, message)` on a client built with domain and token. -/
  | mgSend (domain apiToken : String) (message : MailgunMessage)
  /-- Call of `mg.ListEvents` with the filter `message-id`, `event`, followed by
  `it.First`, started at time `now`. -/
  | listEvents (now : Nat) (messageID : String) (event : String)
  /-- Call of `time.Sleep(d)` started at time `now`. -/
  | sleep (now : Nat) (d : Nat)
deriving DecidableEq, Repr

/-- A delivery check: `Message.Get` or `ListEvents`. -/
def Call.isCheck : Call → Bool
  | .messageGet _ _ => true
  | .listEvents _ _ _ => true
  | _ => false

/-- A send call. -/
def Call.isSend : Call → Bool
  | .emailSend _ _ => true
  | .mgSend _ _ _ => true
  | _ => false

/-- A provider (network) call: a send or a delivery check. -/
def Call.isNetwork (c : Call) : Bool := c.isSend || c.isCheck

/-- A sleep. -/
def Call.isSleep : Call → Bool
  | .sleep _ _ => true
  | _ => false

/-- Start time of a delivery check, `none` for the other calls. -/
def Call.checkTime : Call → Option Nat
  | .messageGet now _ => some now
  | .listEvents now _ _ => some now
  | _ => none

/-- The mailersend SDK as an oracle. -/
structure MailerSendAPI where
  /-- Answer of `Email.Send`: an error, or the `X-Message-Id` header of the response. -/
  send : String → MailerSendMessage → Except GoError String
  /-- Time `Email.Send` takes. -/
  sendDuration : Nat
  /-- The n-th `Message.Get` of the run: an error, or the `Status` fields of
  `Data.Emails`. -/
  get : Nat → String → Except GoError (List String)
  /-- Time the n-th `Message.Get` takes. -/
  getDuration : Nat → Nat

/-- The mailgun SDK as an oracle. -/
structure MailgunAPI where
  /-- Answer of `mg.Send`: the message identifier and the error, both as returned. -/
  send : String → String → MailgunMessage → String × Option GoError
  /-- Time `mg.Send` takes. -/
  sendDuration : Nat
  /-- The n-th `ListEvents` + `it.First` of the run: the boolean `it.First`
  returns (false on a query error) and the events it stored. -/
  first : Nat → String → Bool × List String
  /-- Time the n-th query takes. -/
  firstDuration : Nat → Nat

/-- What a run of `SendEmail` meets: the clock at entry and the two SDKs. -/
structure World where
  now : Nat
  mailersend : MailerSendAPI
  mailgun : MailgunAPI

/-- State of a polling loop between iterations. -/
structure PollState where
  /-- Current time. -/
  now : Nat
  /-- Number of delivery checks done so far. -/
  checks : Nat
  /-- Calls made so far. -/
  trace : List Call
deriving DecidableEq, Repr

/-- What `SendEmail` returns, with the clock and the trace at return. -/
structure SendOutcome where
  result : Result
  err : Option GoError
  now : Nat
  trace : List Call
deriving DecidableEq, Repr

/-- The error of the `case <-timer.C` branch. -/
def timeoutError : GoError := errorsNew "timed out waiting for message delivery"

/-- The condition of line 82:
`len(Data.Emails) > 0 && Data.Emails[0].Status == "delivered"`. -/
def emailsDelivered (statuses : List String) : Bool :=
  decide (statuses.length > 0) && (statuses.head? == some "delivered")

/-- The `for { select { ... } }` loop of `sendViaMailerSend` (lines 71-89);
`deadline` is the time at which the timer fires. -/
def mailerSendPoll (api : MailerSendAPI) (messageID : String) (deadline : Nat) :
    Nat → PollState → Option SendOutcome
  | 0, _ => none
  | fuel + 1, st =>
    if deadline ≤ st.now then
      some { result := default, err := some timeoutError, now := st.now, trace := st.trace }
    else
      let now1 := st.now + api.getDuration st.checks
      let trace1 := st.trace ++ [Call.messageGet st.now messageID]
      match api.get st.checks messageID with
      | .error err => some { result := default, err := some err, now := now1, trace := trace1 }
      | .ok statuses =>
        if emailsDelivered statuses then
          some { result := { MessageID := messageID, DeliveryStatus := "Delivered" },
                 err := none, now := now1, trace := trace1 }
        else
          mailerSendPoll api messageID deadline fuel
            { now := now1 + MessageCheckInterval, checks := st.checks + 1,
              trace := trace1 ++ [Call.sleep now1 MessageCheckInterval] }

/-- The message of lines 47-59. -/
def mailerSendMessage (e : MailClient) : MailerSendMessage :=
  { FromName := e.From, FromEmail := e.From,
    Recipients := [(e.Recipient, e.Recipient)],
    Subject := e.Subject, Text := e.Text }

/-- Method `MailClient.sendViaMailerSend`. -/
def sendViaMailerSend (fuel : Nat) (e : MailClient) (w : World) : Option SendOutcome :=
  let message := mailerSendMessage e
  let trace0 := [Call.emailSend e.ApiToken message]
  let now0 := w.now + w.mailersend.sendDuration
  match w.mailersend.send e.ApiToken message with
  | .error err => some { result := default, err := some err, now := now0, trace := trace0 }
  | .ok messageID =>
    mailerSendPoll w.mailersend messageID (now0 + MessageCheckTimeout) fuel
      { now := now0, checks := 0, trace := trace0 }

/-- Go `strings.Trim(s, cutset)`: `s` without its leading and trailing
characters that belong to `cutset`. -/
def stringsTrim (s cutset : String) : String :=
  String.mk
    (((s.data.dropWhile fun ch => cutset.data.contains ch).reverse.dropWhile
      fun ch => cutset.data.contains ch).reverse)

/-- The `for { select { ... } }` loop of `sendViaMailgun` (lines 117-139). -/
def mailgunPoll (api : MailgunAPI) (messageID : String) (deadline : Nat) :
    Nat → PollState → Option SendOutcome
  | 0, _ => none
  | fuel + 1, st =>
    if deadline ≤ st.now then
      some { result := default, err := some timeoutError, now := st.now, trace := st.trace }
    else
      let now1 := st.now + api.firstDuration st.checks
      let trace1 := st.trace ++ [Call.listEvents st.now messageID "delivered"]
      let (noError, events) := api.first st.checks messageID
      if noError && decide (events.length > 0) then
        some { result := { MessageID := messageID, DeliveryStatus := "Delivered" },
               err := none, now := now1, trace := trace1 }
      else
        mailgunPoll api messageID deadline fuel
          { now := now1 + MessageCheckInterval, checks := st.checks + 1,
            trace := trace1 ++ [Call.sleep now1 MessageCheckInterval] }

/-- The message of lines 95-100. -/
def mailgunMessage (e : MailClient) : MailgunMessage :=
  { Sender := e.From, Subject := e.Subject, Body := e.Text, Recipient := e.Recipient }

/-- Method `MailClient.sendViaMailgun`. -/
def sendViaMailgun (fuel : Nat) (e : MailClient) (w : World) : Option SendOutcome :=
  let message := mailgunMessage e
  let trace0 := [Call.mgSend e.Domain e.ApiToken message]
  let now0 := w.now + w.mailgun.sendDuration
  let (rawID, err) := w.mailgun.send e.Domain e.ApiToken message
  let messageID := stringsTrim rawID "<>"
  match err with
  | some err => some { result := default, err := some err, now := now0, trace := trace0 }
  | none =>
    mailgunPoll w.mailgun messageID (now0 + MessageCheckTimeout) fuel
      { now := now0, checks := 0, trace := trace0 }

/-- Method `MailClient.SendEmail`. -/
def SendEmail (fuel : Nat) (e : MailClient) (w : World) : Option SendOutcome :=
  if e.Provider = "mailersend" then sendViaMailerSend fuel e w
  else if e.Provider = "mailgun" then sendViaMailgun fuel e w
  else some { result := default, err := some (errorsNew "unsupported email provider"),
              now := w.now, trace := [] }

/-! ## internal/controller/email_controller.go -/

/-- Type `ctrl.Request`: the namespaced name of the object to reconcile. -/
structure Request where
  Namespace : String
  Name : String
deriving DecidableEq, Repr

/-- The Kubernetes client as an oracle. -/
structure Cluster where
  /-- Answer of `r.Get` of the `Email` named by the request. -/
  getEmail : Request → Except GoError Email
  /-- Answer of `r.Get` of an `EmailSenderConfig`, by namespace and name. -/
  getEmailSenderConfig : String → String → Except GoError EmailSenderConfig
  /-- Answer of `r.Get` of a `Secret`, by namespace and name. -/
  getSecret : String → String → Except GoError Secret
  /-- Answer of `r.Status().Update(ctx, email)`: `none` when the write succeeds. -/
  statusUpdate : Email → Option GoError

/-- What `Reconcile` returns and did: the returned error, the status handed to
`r.Status().Update` (if it was called) and the provider calls made. -/
structure ReconcileOutcome where
  err : Option GoError
  written : Option EmailStatus
  trace : List Call
deriving DecidableEq, Repr

/-- The `client.IgnoreNotFound(err)` of controller-runtime. -/
def IgnoreNotFound (err : GoError) : Option GoError :=
  if err.isNotFound then none else some err

/-- The block `if updateErr := r.Status().Update(ctx, email); updateErr != nil
{ return ctrl.Result{}, updateErr }; return ctrl.Result{}, err`, which ends
each of the four branches of `Reconcile`. -/
def updateStatusAndReturn (k : Cluster) (email : Email) (err : Option GoError)
    (trace : List Call) : ReconcileOutcome :=
  match k.statusUpdate email with
  | some updateErr => { err := some updateErr, written := some email.Status, trace := trace }
  | none => { err := err, written := some email.Status, trace := trace }

/-- The `MailClient` literal of lines 105-113. -/
def mailClientOf (email : Email) (emailSenderConfig : EmailSenderConfig) (secret : Secret) :
    MailClient :=
  { Provider := emailSenderConfig.Spec.Provider,
    ApiToken := secret.dataString "apiToken",
    Recipient := email.Spec.RecipientEmail,
    Subject := email.Spec.Subject,
    From := emailSenderConfig.Spec.SenderEmail,
    Text := email.Spec.Body,
    Domain := emailSenderConfig.Spec.Domain }

/-- Method `EmailReconciler.Reconcile` (logging left out). -/
def Reconcile (fuel : Nat) (k : Cluster) (w : World) (req : Request) :
    Option ReconcileOutcome :=
  match k.getEmail req with
  | .error err => some { err := IgnoreNotFound err, written := none, trace := [] }
  | .ok email =>
    match k.getEmailSenderConfig req.Namespace email.Spec.SenderConfigRef with
    | .error err =>
      let text :=
        if err.isNotFound then
          "EmailSenderConfig " ++ email.Spec.SenderConfigRef ++ " not found"
        else
          "Failed to get EmailSenderConfig: " ++ err.msg
      let email1 := { email with
        Status := { email.Status with DeliveryStatus := "Failed", Error := text } }
      some (updateStatusAndReturn k email1 (some err) [])
    | .ok emailSenderConfig =>
      match k.getSecret req.Namespace emailSenderConfig.Spec.APITokenSecretRef with
      | .error err =>
        let email1 := { email with
          Status := { email.Status with
            DeliveryStatus := "Failed", Error := "Failed to get secret: " ++ err.msg } }
        some (updateStatusAndReturn k email1 (some err) [])
      | .ok secret =>
        match SendEmail fuel (mailClientOf email emailSenderConfig secret) w with
        | none => none
        | some out =>
          match out.err with
          | some err =>
            let email1 := { email with
              Status := { email.Status with
                DeliveryStatus := "Failed", Error := "Failed to send email: " ++ err.msg } }
            some (updateStatusAndReturn k email1 (some err) out.trace)
          | none =>
            let email1 := { email with
              Status := { DeliveryStatus := out.result.DeliveryStatus, Error := "",
                          MessageID := out.result.MessageID } }
            some (updateStatusAndReturn k email1 none out.trace)

/-! ## Helpers for the statements -/

/-- Time at which the n-th delivery check (counted from 0) starts when the
checks before it were all unconfirmed: every earlier iteration took the
duration of its check and one sleep of `MessageCheckInterval`. -/
def checkStart (dur : Nat → Nat) (t0 : Nat) : Nat → Nat
  | 0 => t0
  | n + 1 => checkStart dur t0 n + dur n + MessageCheckInterval

/-- Calls made by the first `n` iterations of a polling loop when each of
their checks was unconfirmed; `check t` is the check call started at `t`. -/
def pendingTrace (dur : Nat → Nat) (check : Nat → Call) (t0 : Nat) : Nat → List Call
  | 0 => []
  | n + 1 =>
    pendingTrace dur check t0 n ++
      [check (checkStart dur t0 n),
       Call.sleep (checkStart dur t0 n + dur n) MessageCheckInterval]

/-- The answer of `Message.Get` confirms delivery (line 82 holds). -/
def mailerSendConfirms (r : Except GoError (List String)) : Bool :=
  match r with
  | .ok statuses => emailsDelivered statuses
  | .error _ => false

/-- The answer of `Message.Get` is an error. -/
def mailerSendCheckFails (r : Except GoError (List String)) : Bool :=
  match r with
  | .ok _ => false
  | .error _ => true

/-- The answer of the event query confirms delivery (line 132 holds). -/
def mailgunConfirms (r : Bool × List String) : Bool :=
  r.1 && decide (r.2.length > 0)

/-- The provider selected by `e.Provider` accepted the send: the send call of
the chosen branch of `SendEmail` returned no error. -/
def sendAccepted (w : World) (e : MailClient) : Prop :=
  (e.Provider = "mailersend" ∧
    ∃ m, w.mailersend.send e.ApiToken (mailerSendMessage e) = .ok m) ∨
  (e.Provider = "mailgun" ∧
    (w.mailgun.send e.Domain e.ApiToken (mailgunMessage e)).2 = none)

/-- The string neither begins nor ends with `<` or `>`. -/
def undecorated (s : String) : Prop :=
  s.data.head? ≠ some '<' ∧ s.data.head? ≠ some '>' ∧
  s.data.getLast? ≠ some '<' ∧ s.data.getLast? ≠ some '>'

instance (s : String) : Decidable (undecorated s) := by
  unfold undecorated
  infer_instance

/-! ## Concrete inputs -/

/-- The Email of the scenarios of section 8, never reconciled before. -/
def demoEmail : Email :=
  { Name := "mail1", Generation := 1,
    Spec := { SenderConfigRef := "cfg1", RecipientEmail := "a@b.com",
              Subject := "Hi", Body := "Hello" },
    Status := { DeliveryStatus := "", MessageID := "", Error := "" } }

/-- The same Email after an earlier successful delivery. -/
def deliveredEmail : Email :=
  { demoEmail with
    Generation := 2,
    Status := { DeliveryStatus := "Delivered", MessageID := "old-id", Error := "" } }

/-- The sender config `cfg1` of the scenarios, for a given provider kind. -/
def demoConfig (provider : String) : EmailSenderConfig :=
  { Spec := { Provider := provider, SenderEmail := "x@y.com", Domain := "mg.y.com",
              APITokenSecretRef := "token1" } }

/-- A secret holding an API token. -/
def demoSecret : Secret := { Data := [("apiToken", "s3cr3t")] }

/-- A request for `demoEmail`. -/
def demoRequest : Request := { Namespace := "default", Name := "mail1" }

/-- A cluster that answers every lookup and every status update the same way. -/
def demoCluster (email : Email) (cfg : Except GoError EmailSenderConfig)
    (secret : Except GoError Secret) (update : Option GoError) : Cluster :=
  { getEmail := fun _ => .ok email,
    getEmailSenderConfig := fun _ _ => cfg,
    getSecret := fun _ _ => secret,
    statusUpdate := fun _ => update }

/-- A not-found error of the Kubernetes client. -/
def notFoundError : GoError := { msg := "emailsenderconfigs cfg1 not found", isNotFound := true }

/-- An error of the Kubernetes client other than not-found. -/
def conflictError : GoError := { msg := "the object has been modified", isNotFound := false }

/-- A provider error. -/
def unauthorizedError : GoError := { msg := "401 Unauthorized", isNotFound := false }

/-- A world where mailersend accepts the send as `m-123` and reports it
delivered at the first check, and mailgun accepts the send as `<abc>`, fails
its first event query and finds a delivered event at the second. -/
def demoWorld : World :=
  { now := 0,
    mailersend :=
      { send := fun _ _ => .ok "m-123", sendDuration := 0,
        get := fun _ _ => .ok ["delivered"], getDuration := fun _ => 0 },
    mailgun :=
      { send := fun _ _ _ => ("<abc>", none), sendDuration := 0,
        first := fun n _ => if n = 0 then (false, []) else (true, ["delivered"]),
        firstDuration := fun _ => 0 } }

/-- A world where both providers reject the send. -/
def rejectingWorld : World :=
  { now := 0,
    mailersend :=
      { send := fun _ _ => .error unauthorizedError, sendDuration := 0,
        get := fun _ _ => .ok ["delivered"], getDuration := fun _ => 0 },
    mailgun :=
      { send := fun _ _ _ => ("", some unauthorizedError), sendDuration := 0,
        first := fun _ _ => (true, ["delivered"]), firstDuration := fun _ => 0 } }

/-- A world where both providers accept the send and no check ever answers
with a delivery: mailersend reports `sent`, every mailgun query fails. -/
def silentWorld : World :=
  { now := 0,
    mailersend :=
      { send := fun _ _ => .ok "m-123", sendDuration := 0,
        get := fun _ _ => .ok ["sent"], getDuration := fun _ => 0 },
    mailgun :=
      { send := fun _ _ _ => ("<abc>", none), sendDuration := 0,
        first := fun _ _ => (false, []), firstDuration := fun _ => 0 } }

/-- The Email of the scenarios after an earlier failed run. -/
def failedEmail : Email :=
  { demoEmail with
    Generation := 2,
    Status := { DeliveryStatus := "Failed", MessageID := "",
                Error := "Failed to send email: 401 Unauthorized" } }

end EmailOperator

namespace EmailOperator

/-! ## Arithmetic of the two constants -/

theorem interval_val : MessageCheckInterval = 5000000000 := by
  norm_num [MessageCheckInterval, Second]

theorem timeout_val : MessageCheckTimeout = 60000000000 := by
  norm_num [MessageCheckTimeout, Second]

theorem pollFuel_val : pollFuel = 13 := by
  norm_num [pollFuel, MessageCheckTimeout, MessageCheckInterval, Second]

theorem checkStart_lower (dur : Nat → Nat) (t0 : Nat) (n : Nat) :
    t0 + n * MessageCheckInterval ≤ checkStart dur t0 n := by
  induction n with
  | zero => simp [checkStart]
  | succ n ih =>
    simp only [checkStart, Nat.succ_mul]
    omega

theorem checkStart_mono (dur : Nat → Nat) (t0 : Nat) {i n : Nat} (h : i ≤ n) :
    checkStart dur t0 i ≤ checkStart dur t0 n := by
  induction n with
  | zero =>
    have : i = 0 := by omega
    subst this
    exact Nat.le_refl _
  | succ n ih =>
    rcases Nat.eq_or_lt_of_le h with h1 | h1
    · subst h1
      exact Nat.le_refl _
    · have := ih (by omega)
      simp only [checkStart]
      omega

/-- A check that starts before the timer fires is one of the first twelve. -/
theorem checkStart_before_deadline (dur : Nat → Nat) (t0 : Nat) (n : Nat)
    (h : checkStart dur t0 n < t0 + MessageCheckTimeout) : n + 1 < pollFuel := by
  have h1 := checkStart_lower dur t0 n
  rw [pollFuel_val]
  rw [timeout_val] at h
  rw [interval_val] at h1
  omega

/-! ## The mailersend polling loop -/

theorem mailerSendPoll_total (api : MailerSendAPI) (id : String) (deadline : Nat) :
    ∀ (fuel : Nat) (st : PollState), deadline ≤ st.now + fuel * MessageCheckInterval →
      ∃ out, mailerSendPoll api id deadline (fuel + 1) st = some out := by
  intro fuel
  induction fuel with
  | zero =>
    intro st h
    have hd : deadline ≤ st.now := by simpa using h
    simp [mailerSendPoll, hd]
  | succ n ih =>
    intro st h
    rw [mailerSendPoll]
    by_cases hd : deadline ≤ st.now
    · simp [hd]
    · simp only [hd, if_false]
      cases hget : api.get st.checks id with
      | error e => simp
      | ok statuses =>
        by_cases hdel : emailsDelivered statuses = true
        · simp [hdel]
        · simp only [hdel, if_false]
          apply ih
          simp only [Nat.succ_mul] at h
          simp only
          omega

/-- Every way the mailersend loop can return: what it appended to the trace,
and which of its three `return` statements produced the outcome. -/
theorem mailerSendPoll_outcome (api : MailerSendAPI) (id : String) (deadline : Nat) :
    ∀ (fuel : Nat) (st : PollState) (out : SendOutcome),
      mailerSendPoll api id deadline fuel st = some out →
      (∃ extra, out.trace = st.trace ++ extra ∧
        ∀ c ∈ extra, c.isSend = false ∧
          (c.isCheck = true → ∃ t, c = Call.messageGet t id ∧ t < deadline)) ∧
      ((out.err = none ∧ out.result = { MessageID := id, DeliveryStatus := "Delivered" } ∧
          ∃ n, st.checks ≤ n ∧ mailerSendConfirms (api.get n id) = true) ∨
        (out.err = some timeoutError ∧ out.result = default ∧ deadline ≤ out.now) ∨
        (out.result = default ∧
          ∃ n e, st.checks ≤ n ∧ api.get n id = .error e ∧ out.err = some e)) := by
  intro fuel
  induction fuel with
  | zero =>
    intro st out h
    simp [mailerSendPoll] at h
  | succ k ih =>
    intro st out h
    rw [mailerSendPoll] at h
    by_cases hd : deadline ≤ st.now
    · simp only [hd, if_true, Option.some.injEq] at h
      subst h
      exact ⟨⟨[], by simp⟩, Or.inr (Or.inl ⟨rfl, rfl, hd⟩)⟩
    · simp only [hd, if_false] at h
      cases hget : api.get st.checks id with
      | error e =>
        simp only [hget, Option.some.injEq] at h
        subst h
        refine ⟨⟨[Call.messageGet st.now id], rfl, ?_⟩, Or.inr (Or.inr ⟨rfl, st.checks, e, Nat.le_refl _, hget, rfl⟩)⟩
        intro c hc
        simp only [List.mem_singleton] at hc
        subst hc
        exact ⟨rfl, fun _ => ⟨st.now, rfl, by omega⟩⟩
      | ok statuses =>
        simp only [hget] at h
        by_cases hdel : emailsDelivered statuses = true
        · simp only [hdel, if_true, Option.some.injEq] at h
          subst h
          refine ⟨⟨[Call.messageGet st.now id], rfl, ?_⟩,
            Or.inl ⟨rfl, rfl, st.checks, Nat.le_refl _, by simp [hget, mailerSendConfirms, hdel]⟩⟩
          intro c hc
          simp only [List.mem_singleton] at hc
          subst hc
          exact ⟨rfl, fun _ => ⟨st.now, rfl, by omega⟩⟩
        · simp only [hdel, if_false] at h
          obtain ⟨⟨extra, htr, hex⟩, hcase⟩ := ih _ out h
          refine ⟨⟨[Call.messageGet st.now id,
              Call.sleep (st.now + api.getDuration st.checks) MessageCheckInterval] ++ extra,
              by simp [htr], ?_⟩, ?_⟩
          · intro c hc
            simp only [List.cons_append, List.nil_append, List.mem_cons] at hc
            rcases hc with hc | hc | hc
            · subst hc
              exact ⟨rfl, fun _ => ⟨st.now, rfl, by omega⟩⟩
            · subst hc
              exact ⟨rfl, fun hx => by simp [Call.isCheck] at hx⟩
            · exact hex c hc
          · rcases hcase with ⟨h1, h2, n, hn, hc⟩ | ⟨h1, h2, h3⟩ | ⟨h1, n, e, hn, hc, he⟩
            · exact Or.inl ⟨h1, h2, n, by simp only at hn; omega, hc⟩
            · exact Or.inr (Or.inl ⟨h1, h2, h3⟩)
            · exact Or.inr (Or.inr ⟨h1, n, e, by simp only at hn; omega, hc, he⟩)

/-- After `n` unconfirmed checks, each started before the timer fired, the
mailersend loop is at the start of iteration `n`. -/
theorem mailerSendPoll_pending (api : MailerSendAPI) (id : String) (deadline : Nat)
    (t0 : Nat) (tr0 : List Call) :
    ∀ (n fuel : Nat),
      (∀ i, i < n → mailerSendConfirms (api.get i id) = false ∧
        mailerSendCheckFails (api.get i id) = false) →
      (∀ i, i < n → checkStart api.getDuration t0 i < deadline) →
      mailerSendPoll api id deadline (fuel + n) { now := t0, checks := 0, trace := tr0 } =
        mailerSendPoll api id deadline fuel
          { now := checkStart api.getDuration t0 n, checks := n,
            trace := tr0 ++ pendingTrace api.getDuration (fun t => Call.messageGet t id) t0 n } := by
  intro n
  induction n with
  | zero =>
    intro fuel _ _
    simp [checkStart, pendingTrace]
  | succ n ih =>
    intro fuel hpend hstart
    have h1 := ih (fuel + 1) (fun i hi => hpend i (by omega)) (fun i hi => hstart i (by omega))
    have e : fuel + (n + 1) = fuel + 1 + n := by omega
    rw [e, h1, mailerSendPoll]
    have hd : ¬ deadline ≤ checkStart api.getDuration t0 n := by
      have := hstart n (by omega)
      omega
    have hp := hpend n (by omega)
    simp only [hd, if_false]
    cases hget : api.get n id with
    | error e =>
      rw [hget] at hp
      simp [mailerSendCheckFails] at hp
    | ok statuses =>
      rw [hget] at hp
      have hdel : emailsDelivered statuses = false := by simpa [mailerSendConfirms] using hp.1
      simp [hdel, checkStart, pendingTrace]

/-! ## The mailgun polling loop -/

theorem mailgunPoll_total (api : MailgunAPI) (id : String) (deadline : Nat) :
    ∀ (fuel : Nat) (st : PollState), deadline ≤ st.now + fuel * MessageCheckInterval →
      ∃ out, mailgunPoll api id deadline (fuel + 1) st = some out := by
  intro fuel
  induction fuel with
  | zero =>
    intro st h
    have hd : deadline ≤ st.now := by simpa using h
    simp [mailgunPoll, hd]
  | succ n ih =>
    intro st h
    rw [mailgunPoll]
    by_cases hd : deadline ≤ st.now
    · simp [hd]
    · simp only [hd, if_false]
      by_cases hc : mailgunConfirms (api.first st.checks id) = true
      · simp only [mailgunConfirms] at hc
        simp [hc]
      · simp only [mailgunConfirms] at hc
        simp only [hc, if_false]
        apply ih
        simp only [Nat.succ_mul] at h
        simp only
        omega

/-- Every way the mailgun loop can return: what it appended to the trace, and
which of its two `return` statements produced the outcome. -/
theorem mailgunPoll_outcome (api : MailgunAPI) (id : String) (deadline : Nat) :
    ∀ (fuel : Nat) (st : PollState) (out : SendOutcome),
      mailgunPoll api id deadline fuel st = some out →
      (∃ extra, out.trace = st.trace ++ extra ∧
        ∀ c ∈ extra, c.isSend = false ∧
          (c.isCheck = true → ∃ t, c = Call.listEvents t id "delivered" ∧ t < deadline)) ∧
      ((out.err = none ∧ out.result = { MessageID := id, DeliveryStatus := "Delivered" } ∧
          ∃ n, st.checks ≤ n ∧ mailgunConfirms (api.first n id) = true) ∨
        (out.err = some timeoutError ∧ out.result = default ∧ deadline ≤ out.now)) := by
  intro fuel
  induction fuel with
  | zero =>
    intro st out h
    simp [mailgunPoll] at h
  | succ k ih =>
    intro st out h
    rw [mailgunPoll] at h
    by_cases hd : deadline ≤ st.now
    · simp only [hd, if_true, Option.some.injEq] at h
      subst h
      exact ⟨⟨[], by simp⟩, Or.inr ⟨rfl, rfl, hd⟩⟩
    · simp only [hd, if_false] at h
      by_cases hc : mailgunConfirms (api.first st.checks id) = true
      · have hc1 := hc
        simp only [mailgunConfirms] at hc1
        simp only [hc1, if_true, Option.some.injEq] at h
        subst h
        refine ⟨⟨[Call.listEvents st.now id "delivered"], rfl, ?_⟩,
          Or.inl ⟨rfl, rfl, st.checks, Nat.le_refl _, hc⟩⟩
        intro c hm
        simp only [List.mem_singleton] at hm
        subst hm
        exact ⟨rfl, fun _ => ⟨st.now, rfl, by omega⟩⟩
      · simp only [mailgunConfirms] at hc
        simp only [hc, if_false] at h
        obtain ⟨⟨extra, htr, hex⟩, hcase⟩ := ih _ out h
        refine ⟨⟨[Call.listEvents st.now id "delivered",
            Call.sleep (st.now + api.firstDuration st.checks) MessageCheckInterval] ++ extra,
            by simp [htr], ?_⟩, ?_⟩
        · intro c hm
          simp only [List.cons_append, List.nil_append, List.mem_cons] at hm
          rcases hm with hm | hm | hm
          · subst hm
            exact ⟨rfl, fun _ => ⟨st.now, rfl, by omega⟩⟩
          · subst hm
            exact ⟨rfl, fun hx => by simp [Call.isCheck] at hx⟩
          · exact hex c hm
        · rcases hcase with ⟨h1, h2, n, hn, hcn⟩ | ⟨h1, h2, h3⟩
          · exact Or.inl ⟨h1, h2, n, by simp only at hn; omega, hcn⟩
          · exact Or.inr ⟨h1, h2, h3⟩

/-- After `n` unconfirmed queries, each started before the timer fired, the
mailgun loop is at the start of iteration `n`. -/
theorem mailgunPoll_pending (api : MailgunAPI) (id : String) (deadline : Nat)
    (t0 : Nat) (tr0 : List Call) :
    ∀ (n fuel : Nat),
      (∀ i, i < n → mailgunConfirms (api.first i id) = false) →
      (∀ i, i < n → checkStart api.firstDuration t0 i < deadline) →
      mailgunPoll api id deadline (fuel + n) { now := t0, checks := 0, trace := tr0 } =
        mailgunPoll api id deadline fuel
          { now := checkStart api.firstDuration t0 n, checks := n,
            trace := tr0 ++
              pendingTrace api.firstDuration (fun t => Call.listEvents t id "delivered") t0 n } := by
  intro n
  induction n with
  | zero =>
    intro fuel _ _
    simp [checkStart, pendingTrace]
  | succ n ih =>
    intro fuel hpend hstart
    have h1 := ih (fuel + 1) (fun i hi => hpend i (by omega)) (fun i hi => hstart i (by omega))
    have e : fuel + (n + 1) = fuel + 1 + n := by omega
    rw [e, h1, mailgunPoll]
    have hd : ¬ deadline ≤ checkStart api.firstDuration t0 n := by
      have := hstart n (by omega)
      omega
    have hp := hpend n (by omega)
    simp only [mailgunConfirms, Bool.and_eq_false_iff] at hp
    have hp2 : ¬ ((api.first n id).1 && decide ((api.first n id).2.length > 0)) = true := by
      rcases hp with hp | hp <;> simp [hp]
    simp only [hd, if_false, hp2]
    simp [checkStart, pendingTrace]

/-! ## SendEmail -/

theorem deadline_le_fuel (t0 fuel : Nat) (h : pollFuel ≤ fuel + 1) :
    t0 + MessageCheckTimeout ≤ t0 + fuel * MessageCheckInterval := by
  rw [pollFuel_val] at h
  rw [timeout_val, interval_val]
  omega

theorem SendEmail_total (fuel : Nat) (hfuel : pollFuel ≤ fuel) (e : MailClient) (w : World) :
    ∃ out, SendEmail fuel e w = some out := by
  obtain ⟨f, rfl⟩ : ∃ f, fuel = f + 1 := ⟨fuel - 1, by rw [pollFuel_val] at hfuel; omega⟩
  unfold SendEmail
  split
  · simp only [sendViaMailerSend]
    cases hs : w.mailersend.send e.ApiToken (mailerSendMessage e) with
    | error err => exact ⟨_, rfl⟩
    | ok m => exact mailerSendPoll_total _ _ _ f _ (deadline_le_fuel _ f hfuel)
  · split
    · simp only [sendViaMailgun]
      cases hs : (w.mailgun.send e.Domain e.ApiToken (mailgunMessage e)).2 with
      | some err => simp
      | none =>
        simp only [hs]
        exact mailgunPoll_total _ _ _ f _ (deadline_le_fuel _ f hfuel)
    · exact ⟨_, rfl⟩

/-- Whatever `SendEmail` returns: with a nil error the result is a delivered
one and the provider accepted the send; with an error the result is empty. -/
theorem SendEmail_outcome (fuel : Nat) (e : MailClient) (w : World) (out : SendOutcome)
    (h : SendEmail fuel e w = some out) :
    (out.err = none → out.result.DeliveryStatus = "Delivered" ∧ sendAccepted w e ∧
      ∃ c ∈ out.trace, c.isSend = true) ∧
    (out.err ≠ none → out.result = default) := by
  unfold SendEmail at h
  split at h
  · rename_i hp
    simp only [sendViaMailerSend] at h
    cases hs : w.mailersend.send e.ApiToken (mailerSendMessage e) with
    | error err =>
      simp only [hs, Option.some.injEq] at h
      subst h
      simp
    | ok m =>
      simp only [hs] at h
      obtain ⟨⟨extra, htr, _⟩, hcase⟩ := mailerSendPoll_outcome _ _ _ _ _ _ h
      rcases hcase with ⟨h1, h2, _⟩ | ⟨h1, h2, _⟩ | ⟨h2, n, err, _, _, h1⟩
      · exact ⟨fun _ => ⟨by rw [h2], Or.inl ⟨hp, m, hs⟩,
            Call.emailSend e.ApiToken (mailerSendMessage e), by rw [htr]; simp, rfl⟩,
          fun hne => absurd h1 hne⟩
      · exact ⟨fun hn => by simp [h1] at hn, fun _ => h2⟩
      · exact ⟨fun hn => by simp [h1] at hn, fun _ => h2⟩
  · split at h
    · rename_i hp
      simp only [sendViaMailgun] at h
      cases hs : (w.mailgun.send e.Domain e.ApiToken (mailgunMessage e)).2 with
      | some err =>
        simp only [hs, Option.some.injEq] at h
        subst h
        simp
      | none =>
        simp only [hs] at h
        obtain ⟨⟨extra, htr, _⟩, hcase⟩ := mailgunPoll_outcome _ _ _ _ _ _ h
        rcases hcase with ⟨h1, h2, _⟩ | ⟨h1, h2, _⟩
        · exact ⟨fun _ => ⟨by rw [h2], Or.inr ⟨hp, hs⟩,
              Call.mgSend e.Domain e.ApiToken (mailgunMessage e), by rw [htr]; simp, rfl⟩,
            fun hne => absurd h1 hne⟩
        · exact ⟨fun hn => by simp [h1] at hn, fun _ => h2⟩
    · simp only [Option.some.injEq] at h
      subst h
      simp

/-! ## Reconcile -/

theorem updateStatusAndReturn_written (k : Cluster) (email : Email) (err : Option GoError)
    (trace : List Call) :
    (updateStatusAndReturn k email err trace).written = some email.Status := by
  unfold updateStatusAndReturn
  split <;> rfl

theorem updateStatusAndReturn_trace (k : Cluster) (email : Email) (err : Option GoError)
    (trace : List Call) :
    (updateStatusAndReturn k email err trace).trace = trace := by
  unfold updateStatusAndReturn
  split <;> rfl

theorem updateStatusAndReturn_ok (k : Cluster) (email : Email) (err : Option GoError)
    (trace : List Call) (h : k.statusUpdate email = none) :
    (updateStatusAndReturn k email err trace).err = err := by
  simp [updateStatusAndReturn, h]

theorem updateStatusAndReturn_failed (k : Cluster) (email : Email) (err : Option GoError)
    (trace : List Call) (updateErr : GoError) (h : k.statusUpdate email = some updateErr) :
    (updateStatusAndReturn k email err trace).err = some updateErr := by
  simp [updateStatusAndReturn, h]

/-- The reconciler once the three lookups succeeded and `SendEmail` returned
an error. -/
theorem Reconcile_send_failed (fuel : Nat) (k : Cluster) (w : World) (req : Request)
    (email : Email) (cfg : EmailSenderConfig) (secret : Secret) (out : SendOutcome)
    (err : GoError)
    (hemail : k.getEmail req = .ok email)
    (hcfg : k.getEmailSenderConfig req.Namespace email.Spec.SenderConfigRef = .ok cfg)
    (hsec : k.getSecret req.Namespace cfg.Spec.APITokenSecretRef = .ok secret)
    (hsend : SendEmail fuel (mailClientOf email cfg secret) w = some out)
    (herr : out.err = some err) :
    Reconcile fuel k w req =
      some (updateStatusAndReturn k
        { email with Status := { email.Status with
            DeliveryStatus := "Failed", Error := "Failed to send email: " ++ err.msg } }
        (some err) out.trace) := by
  simp [Reconcile, hemail, hcfg, hsec, hsend, herr]

/-- The reconciler once the three lookups succeeded and `SendEmail` returned
no error. -/
theorem Reconcile_send_ok (fuel : Nat) (k : Cluster) (w : World) (req : Request)
    (email : Email) (cfg : EmailSenderConfig) (secret : Secret) (out : SendOutcome)
    (hemail : k.getEmail req = .ok email)
    (hcfg : k.getEmailSenderConfig req.Namespace email.Spec.SenderConfigRef = .ok cfg)
    (hsec : k.getSecret req.Namespace cfg.Spec.APITokenSecretRef = .ok secret)
    (hsend : SendEmail fuel (mailClientOf email cfg secret) w = some out)
    (herr : out.err = none) :
    Reconcile fuel k w req =
      some (updateStatusAndReturn k
        { email with Status :=
            { DeliveryStatus := out.result.DeliveryStatus, Error := "",
              MessageID := out.result.MessageID } }
        none out.trace) := by
  simp [Reconcile, hemail, hcfg, hsec, hsend, herr]

theorem append_ne_empty (a b : String) (h : a ≠ "") : a ++ b ≠ "" := by
  intro hab
  apply h
  have h1 : (a ++ b).data = [] := by rw [hab]
  rw [String.data_append] at h1
  have h2 : a.data = [] := (List.append_eq_nil.mp h1).1
  exact String.ext h2

/-- When the send call of the selected provider fails, `SendEmail` returns
that error at once. -/
theorem SendEmail_send_error (fuel : Nat) (w : World) (e : MailClient) (sendErr : GoError)
    (hsend : (e.Provider = "mailersend" ∧
        w.mailersend.send e.ApiToken (mailerSendMessage e) = .error sendErr) ∨
      (e.Provider = "mailgun" ∧
        (w.mailgun.send e.Domain e.ApiToken (mailgunMessage e)).2 = some sendErr)) :
    ∃ out, SendEmail fuel e w = some out ∧ out.result = default ∧ out.err = some sendErr ∧
      (∀ c ∈ out.trace, c.isCheck = false ∧ c.isSleep = false) := by
  rcases hsend with ⟨hp, hs⟩ | ⟨hp, hs⟩
  · refine ⟨_, by simp only [SendEmail, hp, if_true, sendViaMailerSend, hs]; rfl, rfl, rfl, ?_⟩
    intro c hc
    simp only [List.mem_singleton] at hc
    subst hc
    exact ⟨rfl, rfl⟩
  · have hne : e.Provider ≠ "mailersend" := by rw [hp]; decide
    refine ⟨_, by simp only [SendEmail, hne, hp, if_true, if_false, sendViaMailgun, hs]; rfl,
      rfl, rfl, ?_⟩
    intro c hc
    simp only [List.mem_singleton] at hc
    subst hc
    exact ⟨rfl, rfl⟩

/-! ## Runs that end in a delivery or in a timeout -/

theorem SendEmail_mailersend (fuel : Nat) (e : MailClient) (w : World) (m : String)
    (hp : e.Provider = "mailersend")
    (hs : w.mailersend.send e.ApiToken (mailerSendMessage e) = .ok m) :
    SendEmail fuel e w =
      mailerSendPoll w.mailersend m
        (w.now + w.mailersend.sendDuration + MessageCheckTimeout) fuel
        { now := w.now + w.mailersend.sendDuration, checks := 0,
          trace := [Call.emailSend e.ApiToken (mailerSendMessage e)] } := by
  simp only [SendEmail, hp, if_true, sendViaMailerSend, hs]

theorem SendEmail_mailgun (fuel : Nat) (e : MailClient) (w : World) (raw : String)
    (hp : e.Provider = "mailgun")
    (hs : w.mailgun.send e.Domain e.ApiToken (mailgunMessage e) = (raw, none)) :
    SendEmail fuel e w =
      mailgunPoll w.mailgun (stringsTrim raw "<>")
        (w.now + w.mailgun.sendDuration + MessageCheckTimeout) fuel
        { now := w.now + w.mailgun.sendDuration, checks := 0,
          trace := [Call.mgSend e.Domain e.ApiToken (mailgunMessage e)] } := by
  have hne : e.Provider ≠ "mailersend" := by rw [hp]; decide
  unfold SendEmail
  rw [if_neg hne, if_pos hp]
  simp only [sendViaMailgun, hs]

/-- The mailersend loop when check `n` is the first to confirm and starts
before the timer fires. -/
theorem mailerSendPoll_delivers (api : MailerSendAPI) (id : String) (t0 : Nat)
    (tr0 : List Call) (fuel n : Nat) (hfuel : pollFuel ≤ fuel)
    (hpend : ∀ i, i < n → mailerSendConfirms (api.get i id) = false ∧
      mailerSendCheckFails (api.get i id) = false)
    (hconf : mailerSendConfirms (api.get n id) = true)
    (hstart : checkStart api.getDuration t0 n < t0 + MessageCheckTimeout) :
    mailerSendPoll api id (t0 + MessageCheckTimeout) fuel
        { now := t0, checks := 0, trace := tr0 } =
      some { result := { MessageID := id, DeliveryStatus := "Delivered" }, err := none,
             now := checkStart api.getDuration t0 n + api.getDuration n,
             trace := tr0 ++
               (pendingTrace api.getDuration (fun t => Call.messageGet t id) t0 n ++
                 [Call.messageGet (checkStart api.getDuration t0 n) id]) } := by
  have hn := checkStart_before_deadline api.getDuration t0 n hstart
  obtain ⟨f, rfl⟩ : ∃ f, fuel = f + 1 + n := ⟨fuel - 1 - n, by omega⟩
  have hstarts : ∀ i, i < n → checkStart api.getDuration t0 i < t0 + MessageCheckTimeout := by
    intro i hi
    have := checkStart_mono api.getDuration t0 (Nat.le_of_lt hi)
    omega
  rw [mailerSendPoll_pending api id _ t0 tr0 n (f + 1) hpend hstarts, mailerSendPoll]
  have hd : ¬ t0 + MessageCheckTimeout ≤ checkStart api.getDuration t0 n := by omega
  simp only [hd, if_false]
  cases hget : api.get n id with
  | error err =>
    rw [hget] at hconf
    simp [mailerSendConfirms] at hconf
  | ok statuses =>
    rw [hget] at hconf
    have hdel : emailsDelivered statuses = true := by simpa [mailerSendConfirms] using hconf
    simp [hdel]

/-- The mailgun loop when query `n` is the first to confirm and starts before
the timer fires. -/
theorem mailgunPoll_delivers (api : MailgunAPI) (id : String) (t0 : Nat)
    (tr0 : List Call) (fuel n : Nat) (hfuel : pollFuel ≤ fuel)
    (hpend : ∀ i, i < n → mailgunConfirms (api.first i id) = false)
    (hconf : mailgunConfirms (api.first n id) = true)
    (hstart : checkStart api.firstDuration t0 n < t0 + MessageCheckTimeout) :
    mailgunPoll api id (t0 + MessageCheckTimeout) fuel
        { now := t0, checks := 0, trace := tr0 } =
      some { result := { MessageID := id, DeliveryStatus := "Delivered" }, err := none,
             now := checkStart api.firstDuration t0 n + api.firstDuration n,
             trace := tr0 ++
               (pendingTrace api.firstDuration (fun t => Call.listEvents t id "delivered") t0 n ++
                 [Call.listEvents (checkStart api.firstDuration t0 n) id "delivered"]) } := by
  have hn := checkStart_before_deadline api.firstDuration t0 n hstart
  obtain ⟨f, rfl⟩ : ∃ f, fuel = f + 1 + n := ⟨fuel - 1 - n, by omega⟩
  have hstarts : ∀ i, i < n → checkStart api.firstDuration t0 i < t0 + MessageCheckTimeout := by
    intro i hi
    have := checkStart_mono api.firstDuration t0 (Nat.le_of_lt hi)
    omega
  rw [mailgunPoll_pending api id _ t0 tr0 n (f + 1) hpend hstarts, mailgunPoll]
  have hd : ¬ t0 + MessageCheckTimeout ≤ checkStart api.firstDuration t0 n := by omega
  simp only [mailgunConfirms] at hconf
  simp [hd, hconf]

/-- Some iteration is the first at which the timer has fired, and it is among
the first thirteen. -/
theorem first_fired_iteration (dur : Nat → Nat) (t0 : Nat) :
    ∃ N, N + 1 ≤ pollFuel ∧ t0 + MessageCheckTimeout ≤ checkStart dur t0 N ∧
      ∀ i, i < N → checkStart dur t0 i < t0 + MessageCheckTimeout := by
  have hex : ∃ N, t0 + MessageCheckTimeout ≤ checkStart dur t0 N := by
    refine ⟨12, ?_⟩
    have := checkStart_lower dur t0 12
    rw [interval_val] at this
    rw [timeout_val]
    omega
  refine ⟨Nat.find hex, ?_, Nat.find_spec hex, ?_⟩
  · have h12 : Nat.find hex ≤ 12 := by
      apply Nat.find_min'
      have := checkStart_lower dur t0 12
      rw [interval_val] at this
      rw [timeout_val]
      omega
    rw [pollFuel_val]
    omega
  · intro i hi
    have := Nat.find_min hex hi
    omega

/-- The mailersend loop when no check confirms and none fails: it returns the
timeout error at iteration `N`, the first at which the timer has fired. -/
theorem mailerSendPoll_times_out (api : MailerSendAPI) (id : String) (t0 : Nat)
    (tr0 : List Call) (fuel N : Nat) (hfuel : pollFuel ≤ fuel)
    (hpend : ∀ i, mailerSendConfirms (api.get i id) = false ∧
      mailerSendCheckFails (api.get i id) = false)
    (hN : N + 1 ≤ pollFuel)
    (hfired : t0 + MessageCheckTimeout ≤ checkStart api.getDuration t0 N)
    (hbefore : ∀ i, i < N → checkStart api.getDuration t0 i < t0 + MessageCheckTimeout) :
    mailerSendPoll api id (t0 + MessageCheckTimeout) fuel
        { now := t0, checks := 0, trace := tr0 } =
      some { result := default, err := some timeoutError,
             now := checkStart api.getDuration t0 N,
             trace := tr0 ++
               pendingTrace api.getDuration (fun t => Call.messageGet t id) t0 N } := by
  obtain ⟨f, rfl⟩ : ∃ f, fuel = f + 1 + N := ⟨fuel - 1 - N, by omega⟩
  rw [mailerSendPoll_pending api id _ t0 tr0 N (f + 1) (fun i _ => hpend i) hbefore,
    mailerSendPoll]
  simp [hfired]

/-- The mailgun loop when no query confirms: it returns the timeout error at
iteration `N`, the first at which the timer has fired. -/
theorem mailgunPoll_times_out (api : MailgunAPI) (id : String) (t0 : Nat)
    (tr0 : List Call) (fuel N : Nat) (hfuel : pollFuel ≤ fuel)
    (hpend : ∀ i, mailgunConfirms (api.first i id) = false)
    (hN : N + 1 ≤ pollFuel)
    (hfired : t0 + MessageCheckTimeout ≤ checkStart api.firstDuration t0 N)
    (hbefore : ∀ i, i < N → checkStart api.firstDuration t0 i < t0 + MessageCheckTimeout) :
    mailgunPoll api id (t0 + MessageCheckTimeout) fuel
        { now := t0, checks := 0, trace := tr0 } =
      some { result := default, err := some timeoutError,
             now := checkStart api.firstDuration t0 N,
             trace := tr0 ++
               pendingTrace api.firstDuration
                 (fun t => Call.listEvents t id "delivered") t0 N } := by
  obtain ⟨f, rfl⟩ : ∃ f, fuel = f + 1 + N := ⟨fuel - 1 - N, by omega⟩
  rw [mailgunPoll_pending api id _ t0 tr0 N (f + 1) (fun i _ => hpend i) hbefore,
    mailgunPoll]
  simp [hfired]

/-- The checks of `pendingTrace` are those started at `checkStart i`, `i < n`. -/
theorem pendingTrace_checks (dur : Nat → Nat) (check : Nat → Call) (t0 : Nat)
    (hcheck : ∀ t, (check t).checkTime = some t) :
    ∀ (n : Nat) (c : Call), c ∈ pendingTrace dur check t0 n → ∀ t, c.checkTime = some t →
      ∃ i, i < n ∧ t = checkStart dur t0 i ∧ c = check t := by
  intro n
  induction n with
  | zero =>
    intro c hc
    simp [pendingTrace] at hc
  | succ n ih =>
    intro c hc t ht
    simp only [pendingTrace, List.mem_append, List.mem_cons, List.mem_singleton,
      List.not_mem_nil, or_false] at hc
    rcases hc with hc | hc | hc
    · obtain ⟨i, hi, h1, h2⟩ := ih c hc t ht
      exact ⟨i, by omega, h1, h2⟩
    · subst hc
      rw [hcheck] at ht
      cases ht
      exact ⟨n, by omega, rfl, rfl⟩
    · subst hc
      simp [Call.checkTime] at ht

/-! ## strings.Trim -/

theorem dropWhile_self_of_head (p : Char → Bool) (l : List Char)
    (h : ∀ a, l.head? = some a → p a = false) : l.dropWhile p = l := by
  cases l with
  | nil => rfl
  | cons a t =>
    have ha : p a = false := h a rfl
    simp [List.dropWhile_cons, ha]

/-- Trimming changes nothing when neither end is in the cutset. -/
theorem trimList_self (p : Char → Bool) (l : List Char)
    (hh : ∀ a, l.head? = some a → p a = false)
    (hl : ∀ a, l.getLast? = some a → p a = false) :
    ((l.dropWhile p).reverse.dropWhile p).reverse = l := by
  rw [dropWhile_self_of_head p l hh,
    dropWhile_self_of_head p l.reverse (by rw [List.head?_reverse]; exact hl),
    List.reverse_reverse]

/-- After trimming neither end is in the cutset. -/
theorem trimList_ends (p : Char → Bool) (l : List Char) :
    (∀ a, (((l.dropWhile p).reverse.dropWhile p).reverse).head? = some a → p a = false) ∧
    (∀ a, (((l.dropWhile p).reverse.dropWhile p).reverse).getLast? = some a → p a = false) := by
  constructor
  · intro a ha
    have hpre : ((l.dropWhile p).reverse.dropWhile p).reverse <+: l.dropWhile p := by
      have := List.dropWhile_suffix (l := (l.dropWhile p).reverse) p
      rw [← List.reverse_prefix, List.reverse_reverse] at this
      exact this
    obtain ⟨t, ht⟩ := hpre
    have hhead : (l.dropWhile p).head? = some a := by
      rw [← ht]
      cases hr : ((l.dropWhile p).reverse.dropWhile p).reverse with
      | nil =>
        rw [hr] at ha
        cases ha
      | cons b r =>
        rw [hr] at ha
        simpa using ha
    have := List.head?_dropWhile_not p l
    rw [hhead] at this
    exact this
  · intro a ha
    rw [List.getLast?_reverse] at ha
    have := List.head?_dropWhile_not p (l.dropWhile p).reverse
    rw [ha] at this
    exact this

theorem stringsTrim_idempotent (s cutset : String) :
    stringsTrim (stringsTrim s cutset) cutset = stringsTrim s cutset := by
  have h := trimList_ends (fun ch => cutset.data.contains ch) s.data
  unfold stringsTrim
  exact congrArg String.mk (trimList_self _ _ h.1 h.2)

theorem inCutset_angle (ch : Char) :
    "<>".data.contains ch = (decide (ch = '<') || decide (ch = '>')) := by
  have h : "<>".data = ['<', '>'] := rfl
  rw [h, Bool.eq_iff_iff]
  simp

theorem stringsTrim_undecorated (s : String) (h : undecorated s) :
    stringsTrim s "<>" = s := by
  obtain ⟨h1, h2, h3, h4⟩ := h
  unfold stringsTrim
  have : ((s.data.dropWhile fun ch => "<>".data.contains ch).reverse.dropWhile
      fun ch => "<>".data.contains ch).reverse = s.data := by
    apply trimList_self
    · intro a ha
      rw [inCutset_angle]
      have e1 : a ≠ '<' := fun e => h1 (by rw [ha, e])
      have e2 : a ≠ '>' := fun e => h2 (by rw [ha, e])
      simp [e1, e2]
    · intro a ha
      rw [inCutset_angle]
      have e1 : a ≠ '<' := fun e => h3 (by rw [ha, e])
      have e2 : a ≠ '>' := fun e => h4 (by rw [ha, e])
      simp [e1, e2]
  rw [this]

theorem stringsTrim_decorated (s : String) (h : undecorated s) :
    stringsTrim ("<" ++ s ++ ">") "<>" = s := by
  obtain ⟨h1, h2, h3, h4⟩ := h
  unfold stringsTrim
  have hdata : ("<" ++ s ++ ">").data = '<' :: (s.data ++ ['>']) := by
    simp [String.data_append]
  rw [hdata]
  have hlt : "<>".data.contains '<' = true := by decide
  have hgt : "<>".data.contains '>' = true := by decide
  rw [List.dropWhile_cons_of_pos hlt]
  cases hs : s.data with
  | nil =>
    have : s = "" := String.ext hs
    subst this
    simp [List.dropWhile_cons, hgt]
  | cons a t =>
    rw [hs] at h1 h2 h3 h4
    have e1 : a ≠ '<' := fun e => h1 (by rw [e]; rfl)
    have e2 : a ≠ '>' := fun e => h2 (by rw [e]; rfl)
    have ha : "<>".data.contains a = false := by
      rw [inCutset_angle]
      simp [e1, e2]
    rw [List.cons_append, List.dropWhile_cons_of_neg (by simp [e1, e2])]
    rw [← List.cons_append, List.reverse_append]
    simp only [List.reverse_cons, List.reverse_nil, List.nil_append, List.singleton_append]
    rw [List.dropWhile_cons_of_pos hgt]
    have hrev : ((t.reverse ++ [a]).dropWhile fun ch => "<>".data.contains ch) =
        t.reverse ++ [a] := by
      apply dropWhile_self_of_head
      intro b hb
      have hb2 : (a :: t).getLast? = some b := by
        rw [← List.head?_reverse]
        simpa using hb
      rw [inCutset_angle]
      have f1 : b ≠ '<' := fun e => h3 (by rw [hb2, e])
      have f2 : b ≠ '>' := fun e => h4 (by rw [hb2, e])
      simp [f1, f2]
    rw [hrev]
    apply String.ext
    simp [hs]

/-! ## A failed delivery check -/

/-- The mailersend branch returns the error of a failed check at once: when
check `n` fails, is reached and starts before the timer fires, the run ends
with that error, and the failed check is the last call of the trace (no sleep
and no further check follow it). -/
theorem SendEmail_mailersend_check_error (fuel : Nat) (hfuel : pollFuel ≤ fuel) (w : World)
    (e : MailClient) (m : String) (n : Nat) (err : GoError)
    (hp : e.Provider = "mailersend")
    (hs : w.mailersend.send e.ApiToken (mailerSendMessage e) = .ok m)
    (hpend : ∀ i, i < n → mailerSendConfirms (w.mailersend.get i m) = false ∧
      mailerSendCheckFails (w.mailersend.get i m) = false)
    (hfail : w.mailersend.get n m = .error err)
    (hstart : checkStart w.mailersend.getDuration (w.now + w.mailersend.sendDuration) n <
      w.now + w.mailersend.sendDuration + MessageCheckTimeout) :
    SendEmail fuel e w =
      some { result := default, err := some err,
             now := checkStart w.mailersend.getDuration (w.now + w.mailersend.sendDuration) n +
               w.mailersend.getDuration n,
             trace := Call.emailSend e.ApiToken (mailerSendMessage e) ::
               (pendingTrace w.mailersend.getDuration (fun t => Call.messageGet t m)
                   (w.now + w.mailersend.sendDuration) n ++
                 [Call.messageGet
                   (checkStart w.mailersend.getDuration (w.now + w.mailersend.sendDuration) n)
                   m]) } := by
  have hn := checkStart_before_deadline _ _ n hstart
  obtain ⟨f, rfl⟩ : ∃ f, fuel = f + 1 + n := ⟨fuel - 1 - n, by omega⟩
  have hstarts : ∀ i, i < n →
      checkStart w.mailersend.getDuration (w.now + w.mailersend.sendDuration) i <
        w.now + w.mailersend.sendDuration + MessageCheckTimeout := by
    intro i hi
    have := checkStart_mono w.mailersend.getDuration (w.now + w.mailersend.sendDuration)
      (Nat.le_of_lt hi)
    omega
  rw [SendEmail_mailersend _ e w m hp hs,
    mailerSendPoll_pending w.mailersend m _ _ _ n (f + 1) hpend hstarts, mailerSendPoll]
  have hd : ¬ w.now + w.mailersend.sendDuration + MessageCheckTimeout ≤
      checkStart w.mailersend.getDuration (w.now + w.mailersend.sendDuration) n := by omega
  simp [hd, hfail]

/-- The mailgun branch never returns the error of a failed query: once the
send is accepted, a run ends either with no error or with the timeout error. -/
theorem SendEmail_mailgun_errors (fuel : Nat) (w : World) (e : MailClient) (raw : String)
    (out : SendOutcome) (hp : e.Provider = "mailgun")
    (hs : w.mailgun.send e.Domain e.ApiToken (mailgunMessage e) = (raw, none))
    (hout : SendEmail fuel e w = some out) :
    out.err = none ∨ out.err = some timeoutError := by
  rw [SendEmail_mailgun fuel e w raw hp hs] at hout
  obtain ⟨_, hcase⟩ := mailgunPoll_outcome _ _ _ _ _ _ hout
  rcases hcase with ⟨h, _⟩ | ⟨h, _⟩
  · exact Or.inl h
  · exact Or.inr h

/-! ## Claims -/

/-- C5. A `MailClient` whose `Provider` is neither "mailersend" nor "mailgun"
gets the empty `Result` and the error "unsupported email provider" from
`SendEmail`, whatever the fuel, and the run makes no call at all: its trace is
empty, so it holds neither a send nor a delivery check. -/
theorem C5_unsupported_provider (fuel : Nat) (e : MailClient) (w : World)
    (h1 : e.Provider ≠ "mailersend") (h2 : e.Provider ≠ "mailgun") :
    SendEmail fuel e w =
      some { result := { MessageID := "", DeliveryStatus := "" },
             err := some (errorsNew "unsupported email provider"),
             now := w.now, trace := [] } := by
  simp only [SendEmail, h1, h2, if_false]
  rfl

/-- C5 at the providers "Mailgun" (a case variant) and "" (the empty string). -/
theorem C5_unsupported_provider_witness :
    (("Mailgun" ≠ "mailersend" ∧ "Mailgun" ≠ "mailgun") ∧
      SendEmail 0 (mailClientOf demoEmail (demoConfig "Mailgun") demoSecret) demoWorld =
        some { result := { MessageID := "", DeliveryStatus := "" },
               err := some (errorsNew "unsupported email provider"),
               now := demoWorld.now, trace := [] }) ∧
    (("" ≠ "mailersend" ∧ "" ≠ "mailgun") ∧
      SendEmail pollFuel (mailClientOf demoEmail (demoConfig "") demoSecret) demoWorld =
        some { result := { MessageID := "", DeliveryStatus := "" },
               err := some (errorsNew "unsupported email provider"),
               now := demoWorld.now, trace := [] }) :=
  ⟨⟨⟨by decide, by decide⟩,
      C5_unsupported_provider 0 (mailClientOf demoEmail (demoConfig "Mailgun") demoSecret)
        demoWorld (by decide) (by decide)⟩,
    ⟨⟨by decide, by decide⟩,
      C5_unsupported_provider pollFuel (mailClientOf demoEmail (demoConfig "") demoSecret)
        demoWorld (by decide) (by decide)⟩⟩

/-- C4. When the send call of the selected provider (mailersend or mailgun)
returns an error, `SendEmail` returns that same error with the empty `Result`,
whatever the fuel, and its trace holds no delivery check (and no sleep); for
an Email whose config and secret resolve to this client, `Reconcile` then
hands to the status update the prior status with deliveryStatus "Failed" and
the error text "Failed to send email: " followed by the text of the send
error. -/
theorem C4_send_error_short_circuits (fuel : Nat) (w : World) (e : MailClient)
    (sendErr : GoError)
    (hsend : (e.Provider = "mailersend" ∧
        w.mailersend.send e.ApiToken (mailerSendMessage e) = .error sendErr) ∨
      (e.Provider = "mailgun" ∧
        (w.mailgun.send e.Domain e.ApiToken (mailgunMessage e)).2 = some sendErr)) :
    (∃ out, SendEmail fuel e w = some out ∧
      out.result = { MessageID := "", DeliveryStatus := "" } ∧ out.err = some sendErr ∧
      (∀ c ∈ out.trace, c.isCheck = false ∧ c.isSleep = false)) ∧
    (∀ (k : Cluster) (req : Request) (email : Email) (cfg : EmailSenderConfig)
        (secret : Secret),
      k.getEmail req = .ok email →
      k.getEmailSenderConfig req.Namespace email.Spec.SenderConfigRef = .ok cfg →
      k.getSecret req.Namespace cfg.Spec.APITokenSecretRef = .ok secret →
      mailClientOf email cfg secret = e →
      ∃ r, Reconcile fuel k w req = some r ∧
        r.written = some { DeliveryStatus := "Failed", MessageID := email.Status.MessageID,
                           Error := "Failed to send email: " ++ sendErr.msg } ∧
        (∀ c ∈ r.trace, c.isCheck = false)) := by
  obtain ⟨out, hout, hres, herr, htr⟩ := SendEmail_send_error fuel w e sendErr hsend
  refine ⟨⟨out, hout, hres, herr, htr⟩, ?_⟩
  intro k req email cfg secret hemail hcfg hsec he
  subst he
  rw [Reconcile_send_failed fuel k w req email cfg secret out sendErr hemail hcfg hsec hout herr]
  refine ⟨_, rfl, ?_, ?_⟩
  · rw [updateStatusAndReturn_written]
  · rw [updateStatusAndReturn_trace]
    exact fun c hc => (htr c hc).1

/-- C4 at a mailersend client whose send is rejected with "401 Unauthorized". -/
theorem C4_send_error_short_circuits_witness :
    ((mailClientOf demoEmail (demoConfig "mailersend") demoSecret).Provider = "mailersend" ∧
      rejectingWorld.mailersend.send
        (mailClientOf demoEmail (demoConfig "mailersend") demoSecret).ApiToken
        (mailerSendMessage (mailClientOf demoEmail (demoConfig "mailersend") demoSecret)) =
        .error unauthorizedError) ∧
    ∃ r, Reconcile 0
        (demoCluster demoEmail (.ok (demoConfig "mailersend")) (.ok demoSecret) none)
        rejectingWorld demoRequest = some r ∧
      r.written = some { DeliveryStatus := "Failed", MessageID := "",
                         Error := "Failed to send email: 401 Unauthorized" } ∧
      (∀ c ∈ r.trace, c.isCheck = false) :=
  ⟨⟨rfl, rfl⟩,
    (C4_send_error_short_circuits 0 rejectingWorld
      (mailClientOf demoEmail (demoConfig "mailersend") demoSecret) unauthorizedError
      (Or.inl ⟨rfl, rfl⟩)).2
      (demoCluster demoEmail (.ok (demoConfig "mailersend")) (.ok demoSecret) none)
      demoRequest demoEmail (demoConfig "mailersend") demoSecret rfl rfl rfl rfl⟩

/-- C6, as stated, fails: with provider kind "unknown" the status handed to
the update has the error "Failed to send email: unsupported email provider",
which is not the text "unsupported email provider". -/
theorem C6_error_text_counterexample :
    Reconcile pollFuel
        (demoCluster demoEmail (.ok (demoConfig "unknown")) (.ok demoSecret) none)
        demoWorld demoRequest =
      some { err := some (errorsNew "unsupported email provider"),
             written := some { DeliveryStatus := "Failed", MessageID := "",
                               Error := "Failed to send email: unsupported email provider" },
             trace := [] } ∧
    ¬ ∃ r st, Reconcile pollFuel
          (demoCluster demoEmail (.ok (demoConfig "unknown")) (.ok demoSecret) none)
          demoWorld demoRequest = some r ∧
        r.written = some st ∧ st.DeliveryStatus = "Failed" ∧
        st.Error = "unsupported email provider" := by
  have h : Reconcile pollFuel
        (demoCluster demoEmail (.ok (demoConfig "unknown")) (.ok demoSecret) none)
        demoWorld demoRequest =
      some { err := some (errorsNew "unsupported email provider"),
             written := some { DeliveryStatus := "Failed", MessageID := "",
                               Error := "Failed to send email: unsupported email provider" },
             trace := [] } := by decide
  refine ⟨h, ?_⟩
  rintro ⟨r, st, hr, hw, _, he⟩
  rw [h] at hr
  cases hr
  cases hw
  revert he
  decide

/-- C6, amended. For an Email whose resolved sender config has a provider kind
other than "mailersend" and "mailgun" and whose secret resolves, `Reconcile`
makes no provider call and hands to the status update the prior status with
deliveryStatus "Failed" and the error text
"Failed to send email: unsupported email provider"; when the status write
succeeds it returns the error "unsupported email provider". -/
theorem C6_unsupported_provider_status (fuel : Nat) (k : Cluster) (w : World) (req : Request)
    (email : Email) (cfg : EmailSenderConfig) (secret : Secret)
    (hemail : k.getEmail req = .ok email)
    (hcfg : k.getEmailSenderConfig req.Namespace email.Spec.SenderConfigRef = .ok cfg)
    (hsec : k.getSecret req.Namespace cfg.Spec.APITokenSecretRef = .ok secret)
    (h1 : cfg.Spec.Provider ≠ "mailersend") (h2 : cfg.Spec.Provider ≠ "mailgun") :
    ∃ r, Reconcile fuel k w req = some r ∧ r.trace = [] ∧
      r.written = some { DeliveryStatus := "Failed", MessageID := email.Status.MessageID,
                         Error := "Failed to send email: unsupported email provider" } ∧
      (k.statusUpdate { email with Status :=
          { DeliveryStatus := "Failed", MessageID := email.Status.MessageID,
            Error := "Failed to send email: unsupported email provider" } } = none →
        r.err = some (errorsNew "unsupported email provider")) := by
  have hsend : SendEmail fuel (mailClientOf email cfg secret) w =
      some { result := default, err := some (errorsNew "unsupported email provider"),
             now := w.now, trace := [] } := by
    simp only [SendEmail, mailClientOf, h1, h2, if_false]
  rw [Reconcile_send_failed fuel k w req email cfg secret _ _ hemail hcfg hsec hsend rfl]
  refine ⟨_, rfl, ?_, ?_, ?_⟩
  · rw [updateStatusAndReturn_trace]
  · rw [updateStatusAndReturn_written]
    rfl
  · intro hupd
    exact updateStatusAndReturn_ok k _ _ _ hupd

/-- C6, amended, at the provider kind "unknown" of the scenario. -/
theorem C6_unsupported_provider_status_witness :
    ((demoConfig "unknown").Spec.Provider ≠ "mailersend" ∧
      (demoConfig "unknown").Spec.Provider ≠ "mailgun") ∧
    ∃ r, Reconcile pollFuel
        (demoCluster demoEmail (.ok (demoConfig "unknown")) (.ok demoSecret) none)
        demoWorld demoRequest = some r ∧ r.trace = [] ∧
      r.written = some { DeliveryStatus := "Failed", MessageID := "",
                         Error := "Failed to send email: unsupported email provider" } ∧
      ((demoCluster demoEmail (.ok (demoConfig "unknown")) (.ok demoSecret) none).statusUpdate
          { demoEmail with Status :=
            { DeliveryStatus := "Failed", MessageID := "",
              Error := "Failed to send email: unsupported email provider" } } = none →
        r.err = some (errorsNew "unsupported email provider")) :=
  ⟨⟨by decide, by decide⟩,
    C6_unsupported_provider_status pollFuel
      (demoCluster demoEmail (.ok (demoConfig "unknown")) (.ok demoSecret) none)
      demoWorld demoRequest demoEmail (demoConfig "unknown") demoSecret rfl rfl rfl
      (by decide) (by decide)⟩

/-- C7, as stated, fails: when the sender config is not found and the status
write fails too, `Reconcile` returns the error of the status write, not the
lookup error. -/
theorem C7_update_error_counterexample :
    Reconcile pollFuel
        (demoCluster demoEmail (.error notFoundError) (.ok demoSecret) (some conflictError))
        demoWorld demoRequest =
      some { err := some conflictError,
             written := some { DeliveryStatus := "Failed", MessageID := "",
                               Error := "EmailSenderConfig cfg1 not found" },
             trace := [] } ∧
    ¬ ∃ r, Reconcile pollFuel
          (demoCluster demoEmail (.error notFoundError) (.ok demoSecret) (some conflictError))
          demoWorld demoRequest = some r ∧
        r.err = some notFoundError := by
  have h : Reconcile pollFuel
        (demoCluster demoEmail (.error notFoundError) (.ok demoSecret) (some conflictError))
        demoWorld demoRequest =
      some { err := some conflictError,
             written := some { DeliveryStatus := "Failed", MessageID := "",
                               Error := "EmailSenderConfig cfg1 not found" },
             trace := [] } := by decide
  refine ⟨h, ?_⟩
  rintro ⟨r, hr, he⟩
  rw [h] at hr
  cases hr
  revert he
  decide

/-- C7, amended. For an Email whose sender config lookup fails, or whose
config resolves and whose secret lookup fails, `Reconcile` makes no provider
call and hands to the status update the prior status with deliveryStatus
"Failed" and a non-empty error: "EmailSenderConfig <senderConfigRef> not found"
for a not-found config, "Failed to get EmailSenderConfig: <err>" for another
config lookup failure, "Failed to get secret: <err>" for a secret failure. When
the status write succeeds it returns the lookup error; when the status write
fails it returns the error of the write. -/
theorem C7_resolution_failure (fuel : Nat) (k : Cluster) (w : World) (req : Request)
    (email : Email) (lookupErr : GoError)
    (hemail : k.getEmail req = .ok email)
    (hfail : k.getEmailSenderConfig req.Namespace email.Spec.SenderConfigRef =
        .error lookupErr ∨
      ∃ cfg, k.getEmailSenderConfig req.Namespace email.Spec.SenderConfigRef = .ok cfg ∧
        k.getSecret req.Namespace cfg.Spec.APITokenSecretRef = .error lookupErr) :
    ∃ r text, Reconcile fuel k w req = some r ∧ r.trace = [] ∧
      r.written = some { DeliveryStatus := "Failed", MessageID := email.Status.MessageID,
                         Error := text } ∧
      text ≠ "" ∧
      (k.getEmailSenderConfig req.Namespace email.Spec.SenderConfigRef = .error lookupErr →
        (lookupErr.isNotFound = true →
          text = "EmailSenderConfig " ++ email.Spec.SenderConfigRef ++ " not found") ∧
        (lookupErr.isNotFound = false →
          text = "Failed to get EmailSenderConfig: " ++ lookupErr.msg)) ∧
      ((∃ cfg, k.getEmailSenderConfig req.Namespace email.Spec.SenderConfigRef = .ok cfg) →
        text = "Failed to get secret: " ++ lookupErr.msg) ∧
      (k.statusUpdate { email with Status :=
          { DeliveryStatus := "Failed", MessageID := email.Status.MessageID,
            Error := text } } = none → r.err = some lookupErr) ∧
      (∀ updateErr, k.statusUpdate { email with Status :=
          { DeliveryStatus := "Failed", MessageID := email.Status.MessageID,
            Error := text } } = some updateErr → r.err = some updateErr) := by
  rcases hfail with hcfg | ⟨cfg, hcfg, hsec⟩
  · refine ⟨_, if lookupErr.isNotFound then
        "EmailSenderConfig " ++ email.Spec.SenderConfigRef ++ " not found"
      else "Failed to get EmailSenderConfig: " ++ lookupErr.msg,
      by simp only [Reconcile, hemail, hcfg]; rfl, ?_, ?_, ?_, ?_, ?_, ?_, ?_⟩
    · rw [updateStatusAndReturn_trace]
    · rw [updateStatusAndReturn_written]
    · split
      · rw [String.append_assoc]
        exact append_ne_empty _ _ (by decide)
      · exact append_ne_empty _ _ (by decide)
    · intro _
      constructor
      · intro hnf
        simp [hnf]
      · intro hnf
        simp [hnf]
    · rintro ⟨cfg, hc⟩
      rw [hcfg] at hc
      cases hc
    · intro hupd
      exact updateStatusAndReturn_ok k _ _ _ hupd
    · intro updateErr hupd
      exact updateStatusAndReturn_failed k _ _ _ updateErr hupd
  · refine ⟨_, "Failed to get secret: " ++ lookupErr.msg,
      by simp only [Reconcile, hemail, hcfg, hsec]; rfl, ?_, ?_, ?_, ?_, ?_, ?_, ?_⟩
    · rw [updateStatusAndReturn_trace]
    · rw [updateStatusAndReturn_written]
    · exact append_ne_empty _ _ (by decide)
    · intro hc
      rw [hcfg] at hc
      cases hc
    · intro _
      rfl
    · intro hupd
      exact updateStatusAndReturn_ok k _ _ _ hupd
    · intro updateErr hupd
      exact updateStatusAndReturn_failed k _ _ _ updateErr hupd

/-- C7, amended, at a sender config that is not found, with a status write
that succeeds. -/
theorem C7_resolution_failure_witness :
    (demoCluster demoEmail (.error notFoundError) (.ok demoSecret) none).getEmail demoRequest =
      .ok demoEmail ∧
    (demoCluster demoEmail (.error notFoundError) (.ok demoSecret) none).getEmailSenderConfig
      demoRequest.Namespace demoEmail.Spec.SenderConfigRef = .error notFoundError ∧
    ∃ r, Reconcile 0
        (demoCluster demoEmail (.error notFoundError) (.ok demoSecret) none)
        demoWorld demoRequest = some r ∧ r.trace = [] ∧
      r.written = some { DeliveryStatus := "Failed", MessageID := "",
                         Error := "EmailSenderConfig cfg1 not found" } ∧
      r.err = some notFoundError := by
  refine ⟨rfl, rfl, ?_⟩
  obtain ⟨r, text, h1, h2, h3, _, h5, _, h7, _⟩ :=
    C7_resolution_failure 0
      (demoCluster demoEmail (.error notFoundError) (.ok demoSecret) none)
      demoWorld demoRequest demoEmail notFoundError rfl (Or.inl rfl)
  have ht : text = "EmailSenderConfig cfg1 not found" := (h5 rfl).1 rfl
  subst ht
  exact ⟨r, h1, h2, h3, h7 rfl⟩

/-- C8. With `pollFuel` iterations or more `Reconcile` returns, for every
request and every behaviour of the cluster and of the providers; whenever it
hands a status to the status update, that status has deliveryStatus
"Delivered" or "Failed", and its error is non-empty exactly when the
deliveryStatus is "Failed". -/
theorem C8_status_invariant (fuel : Nat) (hfuel : pollFuel ≤ fuel) (k : Cluster) (w : World)
    (req : Request) :
    ∃ r, Reconcile fuel k w req = some r ∧
      ∀ st, r.written = some st →
        (st.DeliveryStatus = "Delivered" ∨ st.DeliveryStatus = "Failed") ∧
        (st.Error ≠ "" ↔ st.DeliveryStatus = "Failed") := by
  cases hemail : k.getEmail req with
  | error err =>
    refine ⟨_, by simp only [Reconcile, hemail]; rfl, ?_⟩
    intro st hst
    cases hst
  | ok email =>
    cases hcfg : k.getEmailSenderConfig req.Namespace email.Spec.SenderConfigRef with
    | error err =>
      refine ⟨_, by simp only [Reconcile, hemail, hcfg]; rfl, ?_⟩
      intro st hst
      rw [updateStatusAndReturn_written] at hst
      cases hst
      refine ⟨Or.inr rfl, fun _ => rfl, fun _ => ?_⟩
      simp only
      split
      · rw [String.append_assoc]
        exact append_ne_empty _ _ (by decide)
      · exact append_ne_empty _ _ (by decide)
    | ok cfg =>
      cases hsec : k.getSecret req.Namespace cfg.Spec.APITokenSecretRef with
      | error err =>
        refine ⟨_, by simp only [Reconcile, hemail, hcfg, hsec]; rfl, ?_⟩
        intro st hst
        rw [updateStatusAndReturn_written] at hst
        cases hst
        exact ⟨Or.inr rfl, fun _ => rfl, fun _ => append_ne_empty _ _ (by decide)⟩
      | ok secret =>
        obtain ⟨out, hout⟩ := SendEmail_total fuel hfuel (mailClientOf email cfg secret) w
        cases herr : out.err with
        | some err =>
          rw [Reconcile_send_failed fuel k w req email cfg secret out err hemail hcfg hsec
            hout herr]
          refine ⟨_, rfl, ?_⟩
          intro st hst
          rw [updateStatusAndReturn_written] at hst
          cases hst
          exact ⟨Or.inr rfl, fun _ => rfl, fun _ => append_ne_empty _ _ (by decide)⟩
        | none =>
          rw [Reconcile_send_ok fuel k w req email cfg secret out hemail hcfg hsec hout herr]
          refine ⟨_, rfl, ?_⟩
          intro st hst
          rw [updateStatusAndReturn_written] at hst
          cases hst
          have hd := ((SendEmail_outcome fuel _ w out hout).1 herr).1
          refine ⟨Or.inl hd, fun h => absurd rfl h, fun h => ?_⟩
          have h2 : "Delivered" = "Failed" := hd.symm.trans h
          exact absurd h2 (by decide)

/-- C8 at the mailersend scenario of section 8. -/
theorem C8_status_invariant_witness :
    pollFuel ≤ 13 ∧
    ∃ r, Reconcile 13
        (demoCluster demoEmail (.ok (demoConfig "mailersend")) (.ok demoSecret) none)
        demoWorld demoRequest = some r ∧
      ∀ st, r.written = some st →
        (st.DeliveryStatus = "Delivered" ∨ st.DeliveryStatus = "Failed") ∧
        (st.Error ≠ "" ↔ st.DeliveryStatus = "Failed") :=
  ⟨by decide,
    C8_status_invariant 13 (by decide)
      (demoCluster demoEmail (.ok (demoConfig "mailersend")) (.ok demoSecret) none)
      demoWorld demoRequest⟩

/-- C9, as stated, fails: an Email delivered earlier, with messageId "old-id",
whose sender config is no longer found, gets a status written with the
non-empty messageId "old-id" by a run that made no provider call. -/
theorem C9_stale_message_id_counterexample :
    Reconcile pollFuel
        (demoCluster deliveredEmail (.error notFoundError) (.ok demoSecret) none)
        demoWorld demoRequest =
      some { err := some notFoundError,
             written := some { DeliveryStatus := "Failed", MessageID := "old-id",
                               Error := "EmailSenderConfig cfg1 not found" },
             trace := [] } ∧
    ¬ ∀ r st, Reconcile pollFuel
          (demoCluster deliveredEmail (.error notFoundError) (.ok demoSecret) none)
          demoWorld demoRequest = some r →
        r.written = some st → st.MessageID ≠ "" → ∃ c ∈ r.trace, c.isSend = true := by
  have h : Reconcile pollFuel
        (demoCluster deliveredEmail (.error notFoundError) (.ok demoSecret) none)
        demoWorld demoRequest =
      some { err := some notFoundError,
             written := some { DeliveryStatus := "Failed", MessageID := "old-id",
                               Error := "EmailSenderConfig cfg1 not found" },
             trace := [] } := by decide
  refine ⟨h, ?_⟩
  intro hall
  obtain ⟨c, hc, _⟩ := hall _ _ h rfl (by decide)
  simp at hc

/-- C9, amended. With `pollFuel` iterations or more `Reconcile` returns, and
whenever it hands a status to the status update, either that status keeps the
messageId of the prior status, or the config and the secret resolved, the
selected provider accepted the send during that run (the send call is in the
trace and returned no error) and the run returned with a confirmed delivery.
So a run that fails at config resolution, secret resolution, provider
selection or send writes the prior messageId unchanged, and when the prior
messageId is empty a non-empty written messageId means the provider accepted
the send during that run. -/
theorem C9_message_id_provenance (fuel : Nat) (hfuel : pollFuel ≤ fuel) (k : Cluster)
    (w : World) (req : Request) (email : Email) (hemail : k.getEmail req = .ok email) :
    ∃ r, Reconcile fuel k w req = some r ∧
      ∀ st, r.written = some st →
        (st.MessageID = email.Status.MessageID ∨
          ∃ cfg secret,
            k.getEmailSenderConfig req.Namespace email.Spec.SenderConfigRef = .ok cfg ∧
            k.getSecret req.Namespace cfg.Spec.APITokenSecretRef = .ok secret ∧
            sendAccepted w (mailClientOf email cfg secret) ∧
            (∃ c ∈ r.trace, c.isSend = true) ∧
            st.DeliveryStatus = "Delivered") ∧
        (email.Status.MessageID = "" → st.MessageID ≠ "" →
          ∃ cfg secret,
            k.getEmailSenderConfig req.Namespace email.Spec.SenderConfigRef = .ok cfg ∧
            k.getSecret req.Namespace cfg.Spec.APITokenSecretRef = .ok secret ∧
            sendAccepted w (mailClientOf email cfg secret) ∧
            ∃ c ∈ r.trace, c.isSend = true) := by
  cases hcfg : k.getEmailSenderConfig req.Namespace email.Spec.SenderConfigRef with
  | error err =>
    refine ⟨_, by simp only [Reconcile, hemail, hcfg]; rfl, ?_⟩
    intro st hst
    rw [updateStatusAndReturn_written] at hst
    cases hst
    exact ⟨Or.inl rfl, fun h0 hne => absurd h0 hne⟩
  | ok cfg =>
    cases hsec : k.getSecret req.Namespace cfg.Spec.APITokenSecretRef with
    | error err =>
      refine ⟨_, by simp only [Reconcile, hemail, hcfg, hsec]; rfl, ?_⟩
      intro st hst
      rw [updateStatusAndReturn_written] at hst
      cases hst
      exact ⟨Or.inl rfl, fun h0 hne => absurd h0 hne⟩
    | ok secret =>
      obtain ⟨out, hout⟩ := SendEmail_total fuel hfuel (mailClientOf email cfg secret) w
      cases herr : out.err with
      | some err =>
        rw [Reconcile_send_failed fuel k w req email cfg secret out err hemail hcfg hsec
          hout herr]
        refine ⟨_, rfl, ?_⟩
        intro st hst
        rw [updateStatusAndReturn_written] at hst
        cases hst
        exact ⟨Or.inl rfl, fun h0 hne => absurd h0 hne⟩
      | none =>
        rw [Reconcile_send_ok fuel k w req email cfg secret out hemail hcfg hsec hout herr]
        refine ⟨_, rfl, ?_⟩
        intro st hst
        rw [updateStatusAndReturn_written] at hst
        cases hst
        obtain ⟨hd, hacc, htr⟩ := (SendEmail_outcome fuel _ w out hout).1 herr
        rw [updateStatusAndReturn_trace]
        exact ⟨Or.inr ⟨cfg, secret, rfl, hsec, hacc, htr, hd⟩,
          fun _ _ => ⟨cfg, secret, rfl, hsec, hacc, htr⟩⟩

/-- C9, amended, at the mailersend scenario of section 8. -/
theorem C9_message_id_provenance_witness :
    pollFuel ≤ 13 ∧
    (demoCluster demoEmail (.ok (demoConfig "mailersend")) (.ok demoSecret) none).getEmail
      demoRequest = .ok demoEmail ∧
    ∃ r, Reconcile 13
        (demoCluster demoEmail (.ok (demoConfig "mailersend")) (.ok demoSecret) none)
        demoWorld demoRequest = some r ∧
      ∀ st, r.written = some st → demoEmail.Status.MessageID = "" → st.MessageID ≠ "" →
        ∃ c ∈ r.trace, c.isSend = true := by
  refine ⟨by decide, rfl, ?_⟩
  obtain ⟨r, hr, hall⟩ :=
    C9_message_id_provenance 13 (by decide)
      (demoCluster demoEmail (.ok (demoConfig "mailersend")) (.ok demoSecret) none)
      demoWorld demoRequest demoEmail rfl
  refine ⟨r, hr, ?_⟩
  intro st hst h0 hne
  obtain ⟨_, _, _, _, _, htr⟩ := (hall st hst).2 h0 hne
  exact htr

/-- C1. For mailersend and for mailgun: when the provider accepts the send
with identifier `m` (for mailgun `m` is the returned identifier with its angle
brackets trimmed) and check number `n` confirms delivery, starts before the
timer fires and is reached (the checks before it were unconfirmed and, for
mailersend, did not fail), then with `pollFuel` iterations or more `SendEmail`
returns `Result{MessageID: m, DeliveryStatus: "Delivered"}` with no error; and
for every Email, whatever its prior status, whose config and secret resolve to
this client, `Reconcile` hands to the status update the status
{deliveryStatus "Delivered", messageId m, error ""} and, when that write
succeeds, returns no error. -/
theorem C1_confirmed_delivery (fuel : Nat) (hfuel : pollFuel ≤ fuel) (w : World)
    (e : MailClient) (m : String) (n : Nat)
    (hdeliv :
      (e.Provider = "mailersend" ∧
        w.mailersend.send e.ApiToken (mailerSendMessage e) = .ok m ∧
        (∀ i, i < n → mailerSendConfirms (w.mailersend.get i m) = false ∧
          mailerSendCheckFails (w.mailersend.get i m) = false) ∧
        mailerSendConfirms (w.mailersend.get n m) = true ∧
        checkStart w.mailersend.getDuration (w.now + w.mailersend.sendDuration) n <
          w.now + w.mailersend.sendDuration + MessageCheckTimeout) ∨
      (e.Provider = "mailgun" ∧
        (∃ raw, w.mailgun.send e.Domain e.ApiToken (mailgunMessage e) = (raw, none) ∧
          m = stringsTrim raw "<>") ∧
        (∀ i, i < n → mailgunConfirms (w.mailgun.first i m) = false) ∧
        mailgunConfirms (w.mailgun.first n m) = true ∧
        checkStart w.mailgun.firstDuration (w.now + w.mailgun.sendDuration) n <
          w.now + w.mailgun.sendDuration + MessageCheckTimeout)) :
    (∃ out, SendEmail fuel e w = some out ∧
      out.result = { MessageID := m, DeliveryStatus := "Delivered" } ∧ out.err = none) ∧
    (∀ (k : Cluster) (req : Request) (email : Email) (cfg : EmailSenderConfig)
        (secret : Secret),
      k.getEmail req = .ok email →
      k.getEmailSenderConfig req.Namespace email.Spec.SenderConfigRef = .ok cfg →
      k.getSecret req.Namespace cfg.Spec.APITokenSecretRef = .ok secret →
      mailClientOf email cfg secret = e →
      ∃ r, Reconcile fuel k w req = some r ∧
        r.written = some { DeliveryStatus := "Delivered", MessageID := m, Error := "" } ∧
        (k.statusUpdate { email with Status :=
            { DeliveryStatus := "Delivered", MessageID := m, Error := "" } } = none →
          r.err = none)) := by
  have hsend : ∃ out, SendEmail fuel e w = some out ∧
      out.result = { MessageID := m, DeliveryStatus := "Delivered" } ∧ out.err = none := by
    rcases hdeliv with ⟨hp, hs, hpend, hconf, hstart⟩ | ⟨hp, ⟨raw, hs, hm⟩, hpend, hconf, hstart⟩
    · rw [SendEmail_mailersend fuel e w m hp hs,
        mailerSendPoll_delivers w.mailersend m _ _ fuel n hfuel hpend hconf hstart]
      exact ⟨_, rfl, rfl, rfl⟩
    · subst hm
      rw [SendEmail_mailgun fuel e w raw hp hs,
        mailgunPoll_delivers w.mailgun _ _ _ fuel n hfuel hpend hconf hstart]
      exact ⟨_, rfl, rfl, rfl⟩
  refine ⟨hsend, ?_⟩
  obtain ⟨out, hout, hres, herr⟩ := hsend
  intro k req email cfg secret hemail hcfg hsec he
  subst he
  rw [Reconcile_send_ok fuel k w req email cfg secret out hemail hcfg hsec hout herr, hres]
  refine ⟨_, rfl, ?_, ?_⟩
  · rw [updateStatusAndReturn_written]
  · intro hupd
    exact updateStatusAndReturn_ok k _ _ _ hupd

/-- C1 at the scenario of section 8: mailersend, identifier "m-123", first
check "delivered", for an Email whose prior status holds an error. -/
theorem C1_confirmed_delivery_witness :
    pollFuel ≤ 13 ∧
    mailerSendConfirms (demoWorld.mailersend.get 0 "m-123") = true ∧
    (∃ out, SendEmail 13 (mailClientOf failedEmail (demoConfig "mailersend") demoSecret)
        demoWorld = some out ∧
      out.result = { MessageID := "m-123", DeliveryStatus := "Delivered" } ∧
      out.err = none) ∧
    ∃ r, Reconcile 13
        (demoCluster failedEmail (.ok (demoConfig "mailersend")) (.ok demoSecret) none)
        demoWorld demoRequest = some r ∧
      r.written = some { DeliveryStatus := "Delivered", MessageID := "m-123", Error := "" } ∧
      ((demoCluster failedEmail (.ok (demoConfig "mailersend")) (.ok demoSecret)
          none).statusUpdate { failedEmail with Status :=
            { DeliveryStatus := "Delivered", MessageID := "m-123", Error := "" } } = none →
        r.err = none) := by
  have h := C1_confirmed_delivery 13 (by decide) demoWorld
    (mailClientOf failedEmail (demoConfig "mailersend") demoSecret) "m-123" 0
    (Or.inl ⟨rfl, rfl, fun i hi => absurd hi (Nat.not_lt_zero i), rfl, by decide⟩)
  exact ⟨by decide, rfl, h.1,
    h.2 (demoCluster failedEmail (.ok (demoConfig "mailersend")) (.ok demoSecret) none)
      demoRequest failedEmail (demoConfig "mailersend") demoSecret rfl rfl rfl rfl⟩

/-- C3. For mailersend and for mailgun, when the send succeeds and no check
ever confirms delivery, `SendEmail` returns with `pollFuel` iterations or more
(the loop terminates), its result is the empty `Result`, and every delivery
check of the run started before the timer fired. Unless a mailersend check
fails (the run then returns that error), the run returns the error
"timed out waiting for message delivery" at iteration `N`, the first at which
the timer has fired: the clock at return is the start of iteration `N`, which
is at or after the deadline, the iterations before `N` started before the
deadline, and the trace is the send followed by the `N` unconfirmed checks,
each with its sleep of `MessageCheckInterval`, and nothing else. -/
theorem C3_timeout_when_unconfirmed (fuel : Nat) (hfuel : pollFuel ≤ fuel) (w : World)
    (e : MailClient) :
    (e.Provider = "mailersend" →
      ∀ m, w.mailersend.send e.ApiToken (mailerSendMessage e) = .ok m →
      (∀ n, mailerSendConfirms (w.mailersend.get n m) = false) →
      ∃ out, SendEmail fuel e w = some out ∧
        out.result = { MessageID := "", DeliveryStatus := "" } ∧
        (∀ c ∈ out.trace, ∀ t, c.checkTime = some t →
          t < w.now + w.mailersend.sendDuration + MessageCheckTimeout) ∧
        ((out.err = some timeoutError ∧
            w.now + w.mailersend.sendDuration + MessageCheckTimeout ≤ out.now) ∨
          ∃ n err, w.mailersend.get n m = .error err ∧ out.err = some err) ∧
        ((∀ n, mailerSendCheckFails (w.mailersend.get n m) = false) →
          ∃ N, w.now + w.mailersend.sendDuration + MessageCheckTimeout ≤
              checkStart w.mailersend.getDuration (w.now + w.mailersend.sendDuration) N ∧
            (∀ i, i < N →
              checkStart w.mailersend.getDuration (w.now + w.mailersend.sendDuration) i <
                w.now + w.mailersend.sendDuration + MessageCheckTimeout) ∧
            out = { result := { MessageID := "", DeliveryStatus := "" },
                    err := some timeoutError,
                    now := checkStart w.mailersend.getDuration
                      (w.now + w.mailersend.sendDuration) N,
                    trace := Call.emailSend e.ApiToken (mailerSendMessage e) ::
                      pendingTrace w.mailersend.getDuration (fun t => Call.messageGet t m)
                        (w.now + w.mailersend.sendDuration) N })) ∧
    (e.Provider = "mailgun" →
      ∀ raw, w.mailgun.send e.Domain e.ApiToken (mailgunMessage e) = (raw, none) →
      (∀ n, mailgunConfirms (w.mailgun.first n (stringsTrim raw "<>")) = false) →
      ∃ out N, SendEmail fuel e w = some out ∧
        (∀ c ∈ out.trace, ∀ t, c.checkTime = some t →
          t < w.now + w.mailgun.sendDuration + MessageCheckTimeout) ∧
        w.now + w.mailgun.sendDuration + MessageCheckTimeout ≤
          checkStart w.mailgun.firstDuration (w.now + w.mailgun.sendDuration) N ∧
        (∀ i, i < N →
          checkStart w.mailgun.firstDuration (w.now + w.mailgun.sendDuration) i <
            w.now + w.mailgun.sendDuration + MessageCheckTimeout) ∧
        out = { result := { MessageID := "", DeliveryStatus := "" },
                err := some timeoutError,
                now := checkStart w.mailgun.firstDuration (w.now + w.mailgun.sendDuration) N,
                trace := Call.mgSend e.Domain e.ApiToken (mailgunMessage e) ::
                  pendingTrace w.mailgun.firstDuration
                    (fun t => Call.listEvents t (stringsTrim raw "<>") "delivered")
                    (w.now + w.mailgun.sendDuration) N }) := by
  obtain ⟨f, rfl⟩ : ∃ f, fuel = f + 1 := ⟨fuel - 1, by rw [pollFuel_val] at hfuel; omega⟩
  constructor
  · intro hp m hs hsilent
    obtain ⟨out, hout⟩ := mailerSendPoll_total w.mailersend m
      (w.now + w.mailersend.sendDuration + MessageCheckTimeout) f
      { now := w.now + w.mailersend.sendDuration, checks := 0,
        trace := [Call.emailSend e.ApiToken (mailerSendMessage e)] }
      (deadline_le_fuel _ f hfuel)
    obtain ⟨⟨extra, htr, hex⟩, hcase⟩ := mailerSendPoll_outcome _ _ _ _ _ _ hout
    refine ⟨out, by rw [SendEmail_mailersend (f + 1) e w m hp hs, hout], ?_, ?_, ?_, ?_⟩
    · rcases hcase with ⟨_, _, n, _, hc⟩ | ⟨_, h2, _⟩ | ⟨h2, _⟩
      · rw [hsilent n] at hc
        cases hc
      · exact h2
      · exact h2
    · intro c hc t ht
      rw [htr] at hc
      simp only [List.singleton_append, List.mem_cons] at hc
      rcases hc with hc | hc
      · subst hc
        simp [Call.checkTime] at ht
      · have hck : c.isCheck = true := by
          cases c <;> simp [Call.checkTime] at ht <;> rfl
        obtain ⟨t1, hc1, ht1⟩ := (hex c hc).2 hck
        subst hc1
        simp only [Call.checkTime, Option.some.injEq] at ht
        omega
    · rcases hcase with ⟨_, _, n, _, hc⟩ | ⟨h1, _, h3⟩ | ⟨_, n, err, _, hg, he⟩
      · rw [hsilent n] at hc
        cases hc
      · exact Or.inl ⟨h1, h3⟩
      · exact Or.inr ⟨n, err, hg, he⟩
    · intro hnofail
      obtain ⟨N, hN, hfired, hbefore⟩ :=
        first_fired_iteration w.mailersend.getDuration (w.now + w.mailersend.sendDuration)
      have hrun := mailerSendPoll_times_out w.mailersend m
        (w.now + w.mailersend.sendDuration)
        [Call.emailSend e.ApiToken (mailerSendMessage e)] (f + 1) N hfuel
        (fun i => ⟨hsilent i, hnofail i⟩) hN hfired hbefore
      rw [hout] at hrun
      exact ⟨N, hfired, hbefore, Option.some.inj hrun⟩
  · intro hp raw hs hsilent
    obtain ⟨N, hN, hfired, hbefore⟩ :=
      first_fired_iteration w.mailgun.firstDuration (w.now + w.mailgun.sendDuration)
    have hrun := mailgunPoll_times_out w.mailgun (stringsTrim raw "<>")
      (w.now + w.mailgun.sendDuration)
      [Call.mgSend e.Domain e.ApiToken (mailgunMessage e)] (f + 1) N hfuel
      hsilent hN hfired hbefore
    obtain ⟨⟨extra, htr, hex⟩, _⟩ := mailgunPoll_outcome _ _ _ _ _ _ hrun
    rw [← SendEmail_mailgun (f + 1) e w raw hp hs] at hrun
    refine ⟨_, N, hrun, ?_, hfired, hbefore, rfl⟩
    intro c hc t ht
    have htr2 : [Call.mgSend e.Domain e.ApiToken (mailgunMessage e)] ++
        pendingTrace w.mailgun.firstDuration
          (fun t => Call.listEvents t (stringsTrim raw "<>") "delivered")
          (w.now + w.mailgun.sendDuration) N =
        [Call.mgSend e.Domain e.ApiToken (mailgunMessage e)] ++ extra := htr
    rw [htr2] at hc
    simp only [List.singleton_append, List.mem_cons] at hc
    rcases hc with hc | hc
    · subst hc
      simp [Call.checkTime] at ht
    · have hck : c.isCheck = true := by
        cases c <;> simp [Call.checkTime] at ht <;> rfl
      obtain ⟨t1, hc1, ht1⟩ := (hex c hc).2 hck
      subst hc1
      simp only [Call.checkTime, Option.some.injEq] at ht
      omega

/-- C3 at a mailersend client whose message stays "sent": the run ends with
the timeout error. -/
theorem C3_timeout_when_unconfirmed_witness :
    pollFuel ≤ 13 ∧
    (∀ n, mailerSendConfirms (silentWorld.mailersend.get n "m-123") = false) ∧
    ∃ out, SendEmail 13 (mailClientOf demoEmail (demoConfig "mailersend") demoSecret)
        silentWorld = some out ∧
      out.result = { MessageID := "", DeliveryStatus := "" } ∧
      (∀ c ∈ out.trace, ∀ t, c.checkTime = some t →
        t < silentWorld.now + silentWorld.mailersend.sendDuration + MessageCheckTimeout) ∧
      out.err = some timeoutError := by
  refine ⟨by decide, fun _ => rfl, ?_⟩
  obtain ⟨out, h1, h2, h3, _, h5⟩ :=
    (C3_timeout_when_unconfirmed 13 (by decide) silentWorld
      (mailClientOf demoEmail (demoConfig "mailersend") demoSecret)).1 rfl "m-123" rfl
      (fun _ => rfl)
  obtain ⟨N, _, _, hout⟩ := h5 (fun _ => rfl)
  exact ⟨out, h1, h2, h3, by rw [hout]⟩

/-- C10. For every identifier `s` that neither begins nor ends with `<` or
`>`: when the mailgun send returns `<s>` and query number `n` is the first to
confirm, started before the timer fires, `SendEmail` returns (with `pollFuel`
iterations or more) the `MessageID` `s`, delivered and without error, and
every event query of the run carries the filter `message-id = s`,
`event = delivered`. Trimming leaves `s` itself unchanged, and trimming any
string twice is the same as trimming it once. -/
theorem C10_mailgun_message_id_trimmed (fuel : Nat) (hfuel : pollFuel ≤ fuel) (w : World)
    (e : MailClient) (s : String) (n : Nat)
    (hs : undecorated s)
    (hp : e.Provider = "mailgun")
    (hsend : w.mailgun.send e.Domain e.ApiToken (mailgunMessage e) = ("<" ++ s ++ ">", none))
    (hpend : ∀ i, i < n → mailgunConfirms (w.mailgun.first i s) = false)
    (hconf : mailgunConfirms (w.mailgun.first n s) = true)
    (hstart : checkStart w.mailgun.firstDuration (w.now + w.mailgun.sendDuration) n <
      w.now + w.mailgun.sendDuration + MessageCheckTimeout) :
    (∃ out, SendEmail fuel e w = some out ∧
      out.result = { MessageID := s, DeliveryStatus := "Delivered" } ∧ out.err = none ∧
      (∀ c ∈ out.trace, c.isCheck = true → ∃ t, c = Call.listEvents t s "delivered")) ∧
    stringsTrim s "<>" = s ∧
    (∀ x : String, stringsTrim (stringsTrim x "<>") "<>" = stringsTrim x "<>") := by
  refine ⟨?_, stringsTrim_undecorated s hs, fun x => stringsTrim_idempotent x "<>"⟩
  have hrun := SendEmail_mailgun fuel e w _ hp hsend
  rw [stringsTrim_decorated s hs] at hrun
  have hdel := mailgunPoll_delivers w.mailgun s (w.now + w.mailgun.sendDuration)
    [Call.mgSend e.Domain e.ApiToken (mailgunMessage e)] fuel n hfuel hpend hconf hstart
  obtain ⟨⟨extra, htr, hex⟩, _⟩ := mailgunPoll_outcome _ _ _ _ _ _ hdel
  rw [← hrun] at hdel
  refine ⟨_, hdel, rfl, rfl, ?_⟩
  intro c hc hck
  have htr2 : [Call.mgSend e.Domain e.ApiToken (mailgunMessage e)] ++
      (pendingTrace w.mailgun.firstDuration (fun t => Call.listEvents t s "delivered")
          (w.now + w.mailgun.sendDuration) n ++
        [Call.listEvents (checkStart w.mailgun.firstDuration (w.now + w.mailgun.sendDuration) n)
          s "delivered"]) =
      [Call.mgSend e.Domain e.ApiToken (mailgunMessage e)] ++ extra := htr
  rw [htr2] at hc
  simp only [List.singleton_append, List.mem_cons] at hc
  rcases hc with hc | hc
  · subst hc
    simp [Call.isCheck] at hck
  · obtain ⟨t, hc1, _⟩ := (hex c hc).2 hck
    exact ⟨t, hc1⟩

/-- C10 at the scenario of section 8: the identifier `<abc>` is stored as
`abc`; the first query fails and the second confirms. -/
theorem C10_mailgun_message_id_trimmed_witness :
    pollFuel ≤ 13 ∧ undecorated "abc" ∧
    demoWorld.mailgun.send "mg.y.com" "s3cr3t"
      (mailgunMessage (mailClientOf demoEmail (demoConfig "mailgun") demoSecret)) =
      ("<" ++ "abc" ++ ">", none) ∧
    mailgunConfirms (demoWorld.mailgun.first 1 "abc") = true ∧
    ∃ out, SendEmail 13 (mailClientOf demoEmail (demoConfig "mailgun") demoSecret)
        demoWorld = some out ∧
      out.result = { MessageID := "abc", DeliveryStatus := "Delivered" } ∧ out.err = none ∧
      (∀ c ∈ out.trace, c.isCheck = true → ∃ t, c = Call.listEvents t "abc" "delivered") :=
  ⟨by decide, by decide, rfl, rfl,
    (C10_mailgun_message_id_trimmed 13 (by decide) demoWorld
      (mailClientOf demoEmail (demoConfig "mailgun") demoSecret) "abc" 1
      (by decide) rfl rfl
      (fun i hi => by
        have h0 : i = 0 := by omega
        subst h0
        rfl)
      rfl (by decide)).1⟩

/-- C2 fails on the mailgun branch. A mailgun client whose first event query
fails and whose second query finds a delivered event is not given an error:
the loop sleeps `MessageCheckInterval`, queries again and returns the
delivery. When every query fails, the twelve failures are reported as
"timed out waiting for message delivery". The mailersend branch does return
the error of a failed check. -/
theorem C2_mailgun_query_error_is_retried :
    demoWorld.mailgun.first 0 "abc" = (false, []) ∧
    SendEmail pollFuel (mailClientOf demoEmail (demoConfig "mailgun") demoSecret) demoWorld =
      some { result := { MessageID := "abc", DeliveryStatus := "Delivered" },
             err := none,
             now := 5000000000,
             trace :=
               [Call.mgSend "mg.y.com" "s3cr3t"
                  { Sender := "x@y.com", Subject := "Hi", Body := "Hello",
                    Recipient := "a@b.com" },
                Call.listEvents 0 "abc" "delivered",
                Call.sleep 0 5000000000,
                Call.listEvents 5000000000 "abc" "delivered"] } ∧
    (∀ n, silentWorld.mailgun.first n "abc" = (false, [])) ∧
    (SendEmail pollFuel (mailClientOf demoEmail (demoConfig "mailgun") demoSecret)
        silentWorld).map (fun out => (out.result, out.err, out.now,
          (out.trace.filter Call.isCheck).length, (out.trace.filter Call.isSleep).length)) =
      some ({ MessageID := "", DeliveryStatus := "" }, some timeoutError, 60000000000,
        12, 12) := by
  refine ⟨rfl, by decide, fun _ => rfl, by decide⟩

end EmailOperator
